import Mathlib

/-!
Verification development for the nextjs-mcp-dev-monitor pipeline.

This file shallowly embeds the components of the repository that the
checked properties talk about:

* `LogParser` (src/components/LogParser.ts) — pattern table, line
  cleaning, line/buffer parsing, deduplication;
* `ErrorClassifier` (ErrorClassifier.ts) — priority computation,
  auto-fixability, grouping, sorting;
* `AutoFixer` (AutoFixer.ts) — safe-mode gate, fix-strategy resolution,
  backup/restore with checksums, validation, and the applyFix
  orchestration, modelled over an explicit file-system state with
  state-preserving exceptions (mirroring JS semantics where mutations
  survive a thrown error);
* `ProcessManager` (ProcessManager.ts) — the start/stop/restart guard
  logic, modelled as a state machine whose asynchronous settlements are
  explicit events;
* `MonitorService` metrics (the session coordinator) — error/fix
  counters and the success-rate computation, with JS numbers modelled
  as rationals.

JavaScript regular expressions used by the source are embedded via a
small token-based matcher (`Tok`, `mmatch`, `rsearch`) implementing
unanchored leftmost search with greedy (longest-first) backtracking for
`.+`-style groups, maximal-munch for `\d+`, `[^c]+`, `\s+`, `\s*` (in
the source every such group is followed by a character the class cannot
match, so maximal munch coincides with backtracking), ordered
alternation, and word boundaries.  SHA-256 checksums are modelled by an
executable deterministic digest; serialized JSON metadata content is
modelled by an opaque-but-executable encoding since the modelled
operations never read it back.
-/

/-- Character classified as whitespace (JS `\s`, ASCII approximation). -/
def isWs (c : Char) : Bool := c.isWhitespace

/-- Decimal digit test (JS `\d`). -/
def isDigitC (c : Char) : Bool := c.isDigit

/-- Word character for JS `\b` boundaries. -/
def isWordChar (c : Char) : Bool := c.isAlphanum || c = '_'

/-- Substring test: JS `String.prototype.includes`. -/
def strContains (s pat : String) : Bool := decide (pat.data <:+: s.data)

/-- Lower-casing as used by `toLowerCase()` on the ASCII messages involved. -/
def jsToLower (s : String) : String := ⟨s.data.map Char.toLower⟩

/-- JS `String.prototype.trim`. -/
def jsTrim (s : String) : String :=
  ⟨((s.data.dropWhile isWs).reverse.dropWhile isWs).reverse⟩

/-- JS `parseInt` on a string whose relevant prefix is decimal digits. -/
def jsParseInt (s : String) : Nat :=
  (s.data.takeWhile isDigitC).foldl (fun a c => 10 * a + (c.toNat - 48)) 0

/-- All splits of `cs` into a nonempty newline-free prefix and the rest,
shortest prefix first. -/
def splitsAsc : List Char → List (List Char × List Char)
  | [] => []
  | c :: tl =>
    if c = '\n' then []
    else ([c], tl) :: (splitsAsc tl).map (fun pr => (c :: pr.1, pr.2))

/-- Splits for a greedy `.+`: longest candidate first. -/
def splitsDesc (cs : List Char) : List (List Char × List Char) :=
  (splitsAsc cs).reverse

/-- Tokens of the embedded regular-expression fragment. -/
inductive Tok where
  | lit (s : String)
  | litCI (s : String)
  | digits
  | dotPlus
  | dotPlusSuf (sufs : List String)
  | noneOfPlus (banned : List Char)
  | altLit (ss : List String)
  | wsPlus
  | wsStar
  | wordB
deriving DecidableEq

/-- Candidate (consumed piece, rest) pairs for one token, in the order a
JS backtracking engine would try them.  `prev` is the character just
before the current position (for `\b`). -/
def consume : Tok → Option Char → List Char → List (List Char × List Char)
  | .lit s, _, cs =>
    if s.data.isPrefixOf cs then [(s.data, cs.drop s.data.length)] else []
  | .litCI s, _, cs =>
    if (cs.take s.data.length).map Char.toLower = s.data.map Char.toLower then
      [(cs.take s.data.length, cs.drop s.data.length)]
    else []
  | .digits, _, cs =>
    let p := cs.takeWhile isDigitC
    if p.isEmpty then [] else [(p, cs.dropWhile isDigitC)]
  | .dotPlus, _, cs => splitsDesc cs
  | .dotPlusSuf sufs, _, cs =>
    (splitsDesc cs).filter
      (fun pr => sufs.any
        (fun suf => suf.data.isSuffixOf pr.1 && decide (suf.data.length < pr.1.length)))
  | .noneOfPlus banned, _, cs =>
    let p := cs.takeWhile (fun c => !(banned.contains c))
    if p.isEmpty then [] else [(p, cs.dropWhile (fun c => !(banned.contains c)))]
  | .altLit ss, _, cs =>
    ss.filterMap
      (fun s => if s.data.isPrefixOf cs then some (s.data, cs.drop s.data.length) else none)
  | .wsPlus, _, cs =>
    let p := cs.takeWhile isWs
    if p.isEmpty then [] else [(p, cs.dropWhile isWs)]
  | .wsStar, _, cs => [(cs.takeWhile isWs, cs.dropWhile isWs)]
  | .wordB, prev, cs =>
    let pw := match prev with | none => false | some c => isWordChar c
    let nw := match cs with | [] => false | c :: _ => isWordChar c
    if pw ≠ nw then [([], cs)] else []

/-- Previous-character tracking across a consumed piece. -/
def lastCharOf (p : List Char) (prev : Option Char) : Option Char :=
  match p.getLast? with
  | some c => some c
  | none => prev

/-- Match a token sequence at the current position, returning the
consumed piece of every token (capture groups are recovered by index).
Candidates are tried in backtracking order, first success wins. -/
def mmatch : List Tok → Option Char → List Char → Option (List (List Char))
  | [], _, _ => some []
  | t :: ts, prev, cs =>
    (consume t prev cs).findSome?
      (fun pr => (mmatch ts (lastCharOf pr.1 prev) pr.2).map (pr.1 :: ·))

/-- Unanchored leftmost search (JS `match`/`test` without `g`). -/
def rsearch (toks : List Tok) : Option Char → List Char → Option (List (List Char))
  | prev, [] => mmatch toks prev []
  | prev, c :: tl =>
    match mmatch toks prev (c :: tl) with
    | some ps => some ps
    | none => rsearch toks (some c) tl

/-- Run a search on a string, returning the per-token pieces. -/
def regexFind (toks : List Tok) (s : String) : Option (List String) :=
  (rsearch toks none s.data).map (List.map (fun l => ⟨l⟩))

/-- JS `RegExp.prototype.test` for a single alternative. -/
def regexTest (toks : List Tok) (s : String) : Bool :=
  (rsearch toks none s.data).isSome

/-- Test for a top-level alternation of token sequences. -/
def rtest (alts : List (List Tok)) (s : String) : Bool :=
  alts.any (fun toks => regexTest toks s)

/-- Error categories (`ErrorType` in types/errors.ts). -/
inductive ErrorType where
  | typescript
  | eslint
  | build
  | runtime
  | importErr
  | syntaxErr
  | unknown
deriving DecidableEq

/-- String value of an `ErrorType` (the TS enum is string-valued). -/
def ErrorType.str : ErrorType → String
  | .typescript => "typescript"
  | .eslint => "eslint"
  | .build => "build"
  | .runtime => "runtime"
  | .importErr => "import"
  | .syntaxErr => "syntax"
  | .unknown => "unknown"

/-- Severities (`ErrorSeverity`). -/
inductive ErrorSeverity where
  | error
  | warning
  | info
deriving DecidableEq

/-- Fix-capability tags (`FixCapability`). -/
inductive FixCapability where
  | autoFixable
  | manualRequired
  | suggestionAvailable
  | noFix
deriving DecidableEq

/-- Source location attached to a diagnostic (`ErrorLocation`). -/
structure ErrorLocation where
  file : String
  line : Nat
  column : Nat
deriving DecidableEq

/-- Parsed diagnostic (`ParsedError`).  `id` is the `randomUUID()` value;
the parser model leaves it empty ("" ) since no checked property depends
on it, and the classifier model takes arbitrary values.  Timestamps are
not modelled (no checked property mentions them). -/
structure ParsedError where
  id : String
  type : ErrorType
  severity : ErrorSeverity
  message : String
  code : Option String
  location : ErrorLocation
  rule : Option String
  fixCapability : FixCapability
  raw : String
deriving DecidableEq

/-- Pattern rows of `LogParser.patterns`, in source order.  Each row is
the token form of the source regex plus the extractor (pulled out below
as `extractN`). -/
def tsErrToks : List Tok :=
  [.dotPlusSuf [".tsx", ".ts"], .lit "(", .digits, .lit ",", .digits,
   .lit "): error TS", .digits, .lit ": ", .dotPlus]

def tsWarnToks : List Tok :=
  [.dotPlusSuf [".tsx", ".ts"], .lit "(", .digits, .lit ",", .digits,
   .lit "): warning TS", .digits, .lit ": ", .dotPlus]

def eslintToks : List Tok :=
  [.dotPlus, .lit ":", .digits, .lit ":", .digits, .lit ": ",
   .altLit ["error", "warning"], .lit " ", .dotPlus, .lit " (", .dotPlus, .lit ")"]

def buildToks : List Tok :=
  [.lit "Error: ", .dotPlus, .lit "\n", .wsPlus, .lit "at ", .dotPlus,
   .lit ":", .digits, .lit ":", .digits]

def runtimeToks : List Tok :=
  [.lit "Error: ", .dotPlus, .wsPlus, .lit "at ", .dotPlus, .lit " (",
   .dotPlus, .lit ":", .digits, .lit ":", .digits, .lit ")"]

def importToks : List Tok :=
  [.lit "Module not found: Can't resolve '", .dotPlus, .lit "' in '", .dotPlus, .lit "'"]

def syntaxToks : List Tok :=
  [.lit "SyntaxError: ", .dotPlus, .lit " in ", .dotPlus, .lit ":", .digits]

def failedCompileToks : List Tok :=
  [.lit "Failed to compile.", .wsStar, .dotPlus]

/-- Partial extraction result of a pattern extractor (the fields a
`Partial<ParsedError>` can carry in this table). -/
structure Extracted where
  message : Option String := none
  code : Option String := none
  rule : Option String := none
  severity : Option ErrorSeverity := none
  location : Option ErrorLocation := none

/-- Piece at index `i` of a match, "" when absent. -/
def pieceAt (ps : List String) (i : Nat) : String := (ps.get? i).getD ""

/-- Extractor of the TypeScript error/warning rows. -/
def extractTs (ps : List String) : Extracted :=
  { location := some
      { file := pieceAt ps 0
        line := jsParseInt (pieceAt ps 2)
        column := jsParseInt (pieceAt ps 4) }
    code := some ("TS" ++ pieceAt ps 6)
    message := some (pieceAt ps 8) }

/-- Extractor of the ESLint row (severity comes from the match). -/
def extractEslint (ps : List String) : Extracted :=
  { location := some
      { file := pieceAt ps 0
        line := jsParseInt (pieceAt ps 2)
        column := jsParseInt (pieceAt ps 4) }
    severity := some (if pieceAt ps 6 = "error" then .error else .warning)
    message := some (pieceAt ps 8)
    rule := some (pieceAt ps 10) }

/-- Extractor of the Next.js build-error row. -/
def extractBuild (ps : List String) : Extracted :=
  { message := some (pieceAt ps 1)
    location := some
      { file := pieceAt ps 5
        line := jsParseInt (pieceAt ps 7)
        column := jsParseInt (pieceAt ps 9) } }

/-- Extractor of the runtime-error row. -/
def extractRuntime (ps : List String) : Extracted :=
  { message := some (pieceAt ps 1)
    location := some
      { file := pieceAt ps 6
        line := jsParseInt (pieceAt ps 8)
        column := jsParseInt (pieceAt ps 10) } }

/-- Extractor of the import/module row. -/
def extractImport (ps : List String) : Extracted :=
  { message := some ("Module not found: Can't resolve '" ++ pieceAt ps 1 ++ "'")
    location := some { file := pieceAt ps 3, line := 1, column := 1 } }

/-- Extractor of the syntax-error row. -/
def extractSyntax (ps : List String) : Extracted :=
  { message := some (pieceAt ps 1)
    location := some { file := pieceAt ps 3, line := jsParseInt (pieceAt ps 5), column := 1 } }

/-- Extractor of the "Failed to compile" row. -/
def extractFailedCompile (ps : List String) : Extracted :=
  { message := some (if pieceAt ps 2 = "" then "Failed to compile" else pieceAt ps 2)
    location := some { file := "unknown", line := 1, column := 1 } }

/-- One row of the pattern table. -/
structure ErrorPattern where
  type : ErrorType
  toks : List Tok
  severity : ErrorSeverity
  fixCapability : FixCapability
  extractor : List String → Extracted

/-- The `LogParser.patterns` table, in source order. -/
def patterns : List ErrorPattern :=
  [ { type := .typescript, toks := tsErrToks, severity := .error,
      fixCapability := .autoFixable, extractor := extractTs },
    { type := .typescript, toks := tsWarnToks, severity := .warning,
      fixCapability := .suggestionAvailable, extractor := extractTs },
    { type := .eslint, toks := eslintToks, severity := .error,
      fixCapability := .autoFixable, extractor := extractEslint },
    { type := .build, toks := buildToks, severity := .error,
      fixCapability := .manualRequired, extractor := extractBuild },
    { type := .runtime, toks := runtimeToks, severity := .error,
      fixCapability := .manualRequired, extractor := extractRuntime },
    { type := .importErr, toks := importToks, severity := .error,
      fixCapability := .autoFixable, extractor := extractImport },
    { type := .syntaxErr, toks := syntaxToks, severity := .error,
      fixCapability := .manualRequired, extractor := extractSyntax },
    { type := .build, toks := failedCompileToks, severity := .error,
      fixCapability := .manualRequired, extractor := extractFailedCompile } ]

/-- Fuel-driven scanner for the ANSI-escape strip; every step consumes
at least one character, so fuel equal to the input length is always
sufficient (the zero-fuel row is reached only on the empty input). -/
def stripAnsiGo : Nat → List Char → List Char
  | 0, cs => cs
  | _ + 1, [] => []
  | fuel + 1, c :: rest =>
    if c = '\x1b' then
      (match rest with
       | '[' :: tl =>
         (match tl.dropWhile (fun d => isDigitC d || d = ';') with
          | 'm' :: tail => stripAnsiGo fuel tail
          | _ => '\x1b' :: stripAnsiGo fuel ('[' :: tl))
       | r => '\x1b' :: stripAnsiGo fuel r)
    else c :: stripAnsiGo fuel rest

/-- Strip ANSI color escapes: the global replace of `\x1b\[[0-9;]*m`. -/
def stripAnsi (cs : List Char) : List Char := stripAnsiGo cs.length cs

/-- `LogParser.cleanLogLine`: strip ANSI escapes then trim. -/
def cleanLogLine (line : String) : String := jsTrim ⟨stripAnsi line.data⟩

/-- `LogParser.looksLikeError`: case-insensitive indicator scan. -/
def looksLikeError (line : String) : Bool :=
  let errorIndicators := ["error", "Error:", "failed", "Failed", "exception",
    "Exception:", "cannot", "Cannot", "undefined", "null is not", "is not defined"]
  errorIndicators.any (fun ind => strContains (jsToLower line) (jsToLower ind))

/-- `LogParser.createParsedError` (modelled id "" — see `ParsedError`). -/
def createParsedError (pat : ErrorPattern) (ex : Extracted) (rawLine : String) : ParsedError :=
  { id := ""
    type := pat.type
    severity := ex.severity.getD pat.severity
    fixCapability := pat.fixCapability
    message := ex.message.getD "Unknown error"
    code := ex.code
    rule := ex.rule
    location := ex.location.getD { file := "unknown", line := 1, column := 1 }
    raw := rawLine }

/-- `LogParser.createUnknownError`. -/
def createUnknownError (line : String) : ParsedError :=
  { id := ""
    type := .unknown
    severity := .error
    fixCapability := .noFix
    message := line
    code := none
    rule := none
    location := { file := "unknown", line := 1, column := 1 }
    raw := line }

/-- `LogParser.parseLogLine`: clean, first matching pattern wins, else
the unclassified fallback, else none.  The extractors of this table
cannot throw, so the source's catch-and-continue is not exercised. -/
def parseLogLine (line : String) : Option ParsedError :=
  let cleanLine := cleanLogLine line
  if (jsTrim cleanLine).isEmpty then none
  else
    match patterns.findSome?
      (fun pat => (regexFind pat.toks cleanLine).map
        (fun ps => createParsedError pat (pat.extractor ps) cleanLine)) with
    | some e => some e
    | none => if looksLikeError cleanLine then some (createUnknownError cleanLine) else none

/-- Dedup signature string used by `deduplicateErrors`. -/
def errSig (e : ParsedError) : String :=
  e.type.str ++ ":" ++ e.message ++ ":" ++ e.location.file ++ ":" ++ toString e.location.line

/-- The 4-tuple (category, message, file, line) the signature encodes. -/
def errSigTuple (e : ParsedError) : ErrorType × String × String × Nat :=
  (e.type, e.message, e.location.file, e.location.line)

/-- `LogParser.deduplicateErrors`: keep the first diagnostic of every
signature, in encounter order (`seen` accumulates signatures). -/
def deduplicateErrors : List ParsedError → List String → List ParsedError
  | [], _ => []
  | e :: es, seen =>
    if seen.contains (errSig e) then deduplicateErrors es seen
    else e :: deduplicateErrors es (errSig e :: seen)

/-- `LogParser.parseLogBuffer`: split on newlines, parse each line,
deduplicate. -/
def parseLogBuffer (buffer : String) : List ParsedError :=
  deduplicateErrors ((buffer.splitOn "\n").filterMap parseLogLine) []

/-- Classified diagnostic (`ClassifiedError`). -/
structure ClassifiedError extends ParsedError where
  priority : Nat
  groupId : Option String
  relatedErrors : List String
  suggestedFix : Option String
  autoFixable : Bool
  file : String
deriving DecidableEq

/-- Priority pattern row of a classification rule. -/
structure PriorityPattern where
  alts : List (List Tok)
  priority : Nat

/-- One `ClassificationRule` (grouping and suggested fixes are inlined
in `classifyError` below, dispatching on the rule's type as the source
closures do). -/
structure ClassificationRule where
  type : ErrorType
  messagePatternsForPriority : List PriorityPattern
  autoFixablePatterns : List (List (List Tok))

/-- Token forms of the classifier regexes. -/
def patCannotFindModule : List (List Tok) := [[.lit "Cannot find module"]]

def patModuleNotFoundAlt : List (List Tok) :=
  [[.lit "Cannot find module"], [.lit "Module ", .dotPlus, .lit " not found"]]

def patPropertyNotExist : List (List Tok) := [[.lit "Property ", .dotPlus, .lit " does not exist"]]

def patTypeNotAssignable : List (List Tok) := [[.lit "Type ", .dotPlus, .lit " is not assignable to type"]]

def patMissingReturn : List (List Tok) := [[.lit "Missing return statement"]]

def patUnusedVar : List (List Tok) := [[.lit "Unused variable"], [.lit "is declared but never read"]]

def patMissingReturnFn : List (List Tok) := [[.lit "Missing return statement in function"]]

def patPropertyDidYouMean : List (List Tok) :=
  [[.lit "Property ", .dotPlus, .lit " does not exist on type ", .dotPlus, .lit " Did you mean"]]

/-- The `classificationRules` table, in source order. -/
def classificationRules : List ClassificationRule :=
  [ { type := .typescript
      messagePatternsForPriority :=
        [ { alts := patModuleNotFoundAlt, priority := 90 },
          { alts := patPropertyNotExist, priority := 80 },
          { alts := patTypeNotAssignable, priority := 70 },
          { alts := patMissingReturn, priority := 60 },
          { alts := patUnusedVar, priority := 30 } ]
      autoFixablePatterns :=
        [ patCannotFindModule, [[.lit "Unused variable"]], patMissingReturnFn, patPropertyDidYouMean ] },
    { type := .eslint
      messagePatternsForPriority :=
        [ { alts := [[.lit "is not defined"]], priority := 85 },
          { alts := [[.lit "Unexpected token"]], priority := 80 },
          { alts := [[.lit "Missing semicolon"]], priority := 20 },
          { alts := [[.lit "Trailing comma"]], priority := 15 },
          { alts := [[.lit "Expected indentation"]], priority := 10 } ]
      autoFixablePatterns :=
        [ [[.lit "Missing semicolon"]], [[.lit "Trailing comma"]], [[.lit "Expected indentation"]],
          [[.lit "Missing space"]], [[.lit "Quotes must be"]] ] },
    { type := .build
      messagePatternsForPriority :=
        [ { alts := [[.lit "Failed to compile"]], priority := 95 },
          { alts := [[.lit "Module build failed"]], priority := 90 },
          { alts := [[.lit "SyntaxError"]], priority := 85 },
          { alts := [[.lit "ReferenceError"]], priority := 80 } ]
      autoFixablePatterns :=
        [ [[.lit "Missing dependency"]], [[.lit "Incorrect file extension"]] ] },
    { type := .runtime
      messagePatternsForPriority :=
        [ { alts := [[.lit "TypeError"]], priority := 85 },
          { alts := [[.lit "ReferenceError"]], priority := 80 },
          { alts := [[.lit "Cannot read property"]], priority := 75 },
          { alts := [[.lit "is not a function"]], priority := 70 } ]
      autoFixablePatterns := [] },
    { type := .importErr
      messagePatternsForPriority :=
        [ { alts := [[.lit "Module not found"]], priority := 90 },
          { alts := [[.lit "Cannot resolve"]], priority := 85 },
          { alts := [[.lit "Invalid import"]], priority := 80 } ]
      autoFixablePatterns :=
        [ [[.lit "Module not found"]], [[.lit "Cannot resolve"]] ] },
    { type := .syntaxErr
      messagePatternsForPriority :=
        [ { alts := [[.lit "Unexpected token"]], priority := 95 },
          { alts := [[.lit "Missing"]], priority := 80 },
          { alts := [[.lit "Expected"]], priority := 75 } ]
      autoFixablePatterns :=
        [ [[.lit "Missing semicolon"]], [[.lit "Missing comma"]] ] } ]

/-- `ErrorClassifier.calculatePriority`.  Base 50/25 by severity, first
matching pattern raises via max, +10 for build/syntax, warnings lose 20
(floored at 1), final clamp to [1,100]. -/
def calculatePriority (e : ParsedError) (rule : ClassificationRule) : Nat :=
  let base : Nat := if e.severity = .error then 50 else 25
  let afterPattern : Nat :=
    match rule.messagePatternsForPriority.find? (fun pr => rtest pr.alts e.message) with
    | some pr => max base pr.priority
    | none => base
  let boosted : Nat :=
    if e.type = .build ∨ e.type = .syntaxErr then afterPattern + 10 else afterPattern
  let afterWarning : Nat :=
    if e.severity = .warning then max 1 (boosted - 20) else boosted
  min 100 (max 1 afterWarning)

/-- `ErrorClassifier.isAutoFixable`. -/
def isAutoFixable (e : ParsedError) (rule : ClassificationRule) : Bool :=
  if e.fixCapability = .autoFixable then true
  else rule.autoFixablePatterns.any (fun alts => rtest alts e.message)

/-- Grouping strategy of each rule (the per-rule closures). -/
def groupingStrategy (t : ErrorType) (e : ParsedError) : String :=
  match t with
  | .typescript => "ts-" ++ (match e.code with | some c => if c = "" then "unknown" else c | none => "unknown")
  | .eslint => "eslint-" ++ (match e.rule with | some r => if r = "" then "unknown" else r | none => "unknown")
  | .build => "build-" ++ e.location.file
  | .runtime => "runtime-" ++ ((e.message.splitOn " ").headD "")
  | .importErr => "import-" ++ e.location.file
  | .syntaxErr => "syntax-" ++ e.location.file ++ "-" ++ toString e.location.line
  | .unknown => ""

/-- `ErrorClassifier.generateTypeScriptFix`. -/
def generateTypeScriptFix (e : ParsedError) : String :=
  if strContains e.message "Cannot find module" then
    match regexFind [.lit "Cannot find module '", .noneOfPlus ['\''], .lit "'"] e.message with
    | some ps => "Install missing module: npm install " ++ pieceAt ps 1
    | none => tsFixFallback e
  else tsFixFallback e
where
  tsFixFallback (e : ParsedError) : String :=
    if strContains e.message "Property" && strContains e.message "does not exist" then
      "Check property name spelling or add property to type definition"
    else if strContains e.message "is not assignable to type" then
      "Fix type mismatch by updating type annotations or value"
    else if strContains e.message "Missing return statement" then
      "Add return statement or change function return type to void"
    else "Review TypeScript error and fix type-related issues"

/-- `ErrorClassifier.generateESLintFix`. -/
def generateESLintFix (e : ParsedError) : String :=
  if strContains e.message "Missing semicolon" then "Add semicolon at end of statement"
  else if strContains e.message "is not defined" then "Import the undefined variable or check spelling"
  else if strContains e.message "Trailing comma" then "Remove or add trailing comma according to ESLint config"
  else if strContains e.message "Expected indentation" then "Fix indentation to match ESLint configuration"
  else "Run ESLint auto-fix: eslint --fix"

/-- `ErrorClassifier.generateImportFix`. -/
def generateImportFix (e : ParsedError) : String :=
  if strContains e.message "Module not found" then
    match regexFind [.lit "Can't resolve '", .noneOfPlus ['\''], .lit "'"] e.message with
    | some ps =>
      let module := pieceAt ps 1
      if module ≠ "" then
        if "./".data.isPrefixOf module.data ∨ "../".data.isPrefixOf module.data then
          "Check file path: " ++ module ++ " exists and spelling is correct"
        else "Install missing package: npm install " ++ module
      else "Fix import path or install missing dependency"
    | none => "Fix import path or install missing dependency"
  else "Fix import path or install missing dependency"

/-- Suggested-fix generator of each rule (`suggestedFixGenerator`). -/
def suggestedFixGenerator (t : ErrorType) (e : ParsedError) : Option String :=
  match t with
  | .typescript => some (generateTypeScriptFix e)
  | .eslint => some (generateESLintFix e)
  | .importErr => some (generateImportFix e)
  | _ => none

/-- `ErrorClassifier.createDefaultClassification`. -/
def createDefaultClassification (e : ParsedError) : ClassifiedError :=
  { e with
    priority := 50
    groupId := none
    relatedErrors := []
    suggestedFix := none
    autoFixable := e.fixCapability = .autoFixable
    file := e.location.file }

/-- `ErrorClassifier.classifyError`: find the rule for the type, fall
back to the default classification, else compute the fields. -/
def classifyError (e : ParsedError) : ClassifiedError :=
  match classificationRules.find? (fun r => r.type = e.type) with
  | none => createDefaultClassification e
  | some rule =>
    { e with
      priority := calculatePriority e rule
      groupId := some (groupingStrategy rule.type e)
      relatedErrors := []
      suggestedFix := suggestedFixGenerator rule.type e
      autoFixable := isAutoFixable e rule
      file := e.location.file }

/-- Truthy group key (`if (!error.groupId) continue`). -/
def groupKeyOf (e : ClassifiedError) : Option String :=
  match e.groupId with
  | some g => if g = "" then none else some g
  | none => none

/-- Update of one entry by `groupRelatedErrors`: members of a
multi-member group get the ids of the other members (in list order);
entries with a falsy key or in singleton groups are untouched. -/
def relateOne (l : List ClassifiedError) (e : ClassifiedError) : ClassifiedError :=
  match groupKeyOf e with
  | none => e
  | some g =>
    let grp := l.filter (fun x => groupKeyOf x = some g)
    if 1 < grp.length then
      { e with relatedErrors := (grp.filter (fun x => x.id ≠ e.id)).map (fun x => x.id) }
    else e

/-- `ErrorClassifier.groupRelatedErrors` as a pure map. -/
def groupRelatedErrors (l : List ClassifiedError) : List ClassifiedError :=
  l.map (relateOne l)

/-- Comparison used by the final sort (`b.priority - a.priority`,
descending, stable). -/
def byPriorityDesc (a b : ClassifiedError) : Bool := b.priority ≤ a.priority

/-- `ErrorClassifier.classifyErrors`: classify, group, sort descending
by priority (stable, as `Array.prototype.sort` is). -/
def classifyErrors (errors : List ParsedError) : List ClassifiedError :=
  (groupRelatedErrors (errors.map classifyError)).mergeSort byPriorityDesc

/-- Options accepted by `ProcessManager.start`. -/
structure DevServerOptions where
  port : Option Nat
  hostname : Option String
deriving DecidableEq

/-- Child-process handle (only liveness is observable to the manager). -/
structure ProcHandle where
  killed : Bool
deriving DecidableEq

/-- `ProcessManager` instance state.  `spawnCount` counts `spawn()`
invocations (observable effect used to state "no process was spawned"). -/
structure PMState where
  process : Option ProcHandle
  projectPath : Option String
  options : Option DevServerOptions
  isStarting : Bool
  spawnCount : Nat
deriving DecidableEq

/-- Fresh `ProcessManager` after the constructor. -/
def PMState.initial : PMState :=
  { process := none, projectPath := none, options := none, isStarting := false, spawnCount := 0 }

/-- `ProcessManager.isRunning`. -/
def pmIsRunning (s : PMState) : Bool :=
  match s.process with
  | some p => !p.killed
  | none => false

/-- Synchronous prefix of `ProcessManager.start` up to the point where
the returned promise is pending: guards, state updates, and the
`spawnDevServer` body through `spawn()` and listener registration.  The
result is `.error` when the call rejects synchronously, `.ok` with the
post-spawn state otherwise (the promise then settles via `pmStartSettle`). -/
def pmStartBegin (s : PMState) (path : String) (opts : Option DevServerOptions) :
    Except String PMState :=
  if s.isStarting then .error "Process is already starting"
  else if pmIsRunning s then .error "Process is already running"
  else
    let s1 := { s with isStarting := true, projectPath := some path, options := opts }
    match s1.projectPath with
    | none => .error "Project path is required"
    | some _ =>
      .ok { s1 with process := some { killed := false }, spawnCount := s1.spawnCount + 1 }

/-- Events that can settle a pending `start` promise. -/
inductive StartEvent where
  | ready
  | errored (msg : String)
  | exited (code : Int)
  | timedOut
deriving DecidableEq

/-- Settlement of the pending `start` promise: ready resolves; `error`
and nonzero `exit` clean up and reject; the startup timer kills the
child and rejects.  (`exited 0` leaves the promise pending in the
source; the model returns the cleaned state without a verdict.) -/
def pmStartSettle (s : PMState) (ev : StartEvent) : Except String PMState × PMState :=
  match ev with
  | .ready => (.ok { s with isStarting := false }, { s with isStarting := false })
  | .errored m =>
    let s' := { s with process := none, isStarting := false }
    (.error m, s')
  | .exited code =>
    let s' := { s with process := none, isStarting := false }
    if code ≠ 0 then (.error ("Process exited with code " ++ toString code), s') else (.ok s', s')
  | .timedOut =>
    let s' := { s with isStarting := false,
                       process := s.process.map (fun _ => { killed := true }) }
    (.error "Process startup timeout", s')

/-- Events that can settle a pending `stop` promise. -/
inductive StopEvent where
  | exited
  | errored (msg : String)
  | killTimeout
deriving DecidableEq

/-- `ProcessManager.stop`: no-op success when no process; otherwise the
promise settles on child exit (cleanup, resolve), child error (cleanup,
reject) or the 10s timer (SIGKILL, reject without cleanup). -/
def pmStop (s : PMState) (ev : StopEvent) : Except String Unit × PMState :=
  match s.process with
  | none => (.ok (), s)
  | some p =>
    match ev with
    | .exited => (.ok (), { s with process := none, isStarting := false })
    | .errored m => (.error m, { s with process := none, isStarting := false })
    | .killTimeout => (.error "Process force killed after timeout", { s with process := some { p with killed := true } })

/-- `ProcessManager.restart`: stop when running, then start again with
the stored path/options; reject when no path was ever stored.  The
started promise is left pending exactly as in `pmStartBegin`. -/
def pmRestart (s : PMState) (stopEv : StopEvent) : Except String Unit × PMState :=
  let stopped : Except String Unit × PMState :=
    if pmIsRunning s then pmStop s stopEv else (.ok (), s)
  match stopped with
  | (.error m, s') => (.error m, s')
  | (.ok _, s') =>
    match s'.projectPath with
    | some path =>
      match pmStartBegin s' path s'.options with
      | .ok s2 => (.ok (), s2)
      | .error m => (.error m, s')
    | none => (.error "Cannot restart: no project path stored", s')

/-- Monitor metrics (`MonitorService.metrics`); JS numbers as rationals. -/
structure MonitorMetrics where
  errorsDetected : Nat
  fixesApplied : Nat
  successRate : ℚ
  uptime : Nat
deriving DecidableEq

/-- `MonitorService.resetMetrics`. -/
def resetMetrics : MonitorMetrics :=
  { errorsDetected := 0, fixesApplied := 0, successRate := 0, uptime := 0 }

/-- `MonitorService.incrementFixesApplied`: bump the counter, then set
the rate to `(fixesApplied / errorsDetected) * 100` guarded by
`errorsDetected > 0`, else 0. -/
def incrementFixesApplied (m : MonitorMetrics) : MonitorMetrics :=
  let m1 := { m with fixesApplied := m.fixesApplied + 1 }
  { m1 with successRate :=
      if 0 < m1.errorsDetected
      then ((m1.fixesApplied : ℚ) / (m1.errorsDetected : ℚ)) * 100
      else 0 }

/-- Metrics effect of `MonitorService.handleNewError` on a fresh
signature (the only metrics field it touches). -/
def detectNewError (m : MonitorMetrics) : MonitorMetrics :=
  { m with errorsDetected := m.errorsDetected + 1 }

/-- Monitor configuration (types/config.ts), fields the AutoFixer reads. -/
structure MonitorConfig where
  projectPath : String
  autoFix : Bool
  safeMode : Bool
  backupEnabled : Bool
  validateFixes : Bool
  backupRetentionDays : Nat
  maxFileSizeAfterFix : Nat
deriving DecidableEq

/-- Fix strategy value (`FixStrategy`); the tag is the string union of
types/errors.ts. -/
structure FixStrategy where
  type : String
  target : Option String
  description : String
deriving DecidableEq

/-- Result of a fix attempt (`FixResult` of types/errors.ts as used by
the AutoFixer: success/file/applied plus optional error and change tag). -/
structure FixResult where
  success : Bool
  file : String
  applied : Bool
  error : Option String
  changes : Option String
deriving DecidableEq

/-- Backup index entry (`BackupMetadata`). -/
structure BackupMetadata where
  id : String
  filePath : String
  timestamp : Nat
  originalSize : Nat
  checksum : String
  fixType : String
  description : String
deriving DecidableEq

/-- File-system plus AutoFixer-instance state the fix pipeline touches.
`files` maps absolute paths to contents (insertion ordered, as directory
listing order), `metaStore` is the in-memory `backupMetadata` map,
`nextId` feeds `randomUUID`, `now` feeds `Date.now`. -/
structure World where
  files : List (String × String)
  metaStore : List (String × BackupMetadata)
  nextId : Nat
  now : Nat

/-- Outcome of a stateful step: a value or a thrown error message. -/
inductive Outcome (α : Type) where
  | ok (a : α)
  | thrown (msg : String)
deriving DecidableEq

/-- State-preserving exception monad: mutations made before a throw
survive it, as in JS. -/
def M (α : Type) : Type := World → Outcome α × World

/-- Return. -/
def mret {α : Type} (a : α) : M α := fun w => (.ok a, w)

/-- Bind. -/
def mbind {α β : Type} (x : M α) (f : α → M β) : M β := fun w =>
  match x w with
  | (.ok a, w') => f a w'
  | (.thrown m, w') => (.thrown m, w')

/-- Throw. -/
def mthrow {α : Type} (msg : String) : M α := fun w => (.thrown msg, w)

/-- Try/catch (state at the failure point is kept, as in JS). -/
def mtry {α : Type} (x : M α) (h : String → M α) : M α := fun w =>
  match x w with
  | (.ok a, w') => (.ok a, w')
  | (.thrown m, w') => h m w'

/-- Association-list lookup by key. -/
def alookup {α : Type} (l : List (String × α)) (k : String) : Option α :=
  (l.find? (fun p => p.1 = k)).map (fun p => p.2)

/-- Association-list insert-or-replace, preserving position. -/
def aupsert {α : Type} : List (String × α) → String → α → List (String × α)
  | [], k, v => [(k, v)]
  | (q, d) :: tl, k, v =>
    if q = k then (k, v) :: tl else (q, d) :: aupsert tl k v

/-- Read a file (`fs.readFile`), throwing when absent. -/
def fsReadFile (p : String) : M String := fun w =>
  match alookup w.files p with
  | some c => (.ok c, w)
  | none => (.thrown ("ENOENT: no such file or directory, open " ++ p), w)

/-- Write a file (`fs.writeFile`/copy target). -/
def fsWriteFile (p c : String) : M Unit := fun w =>
  (.ok (), { w with files := aupsert w.files p c })

/-- Size of a file (`fs.stat(..).size`), modelled as content length. -/
def fsStatSize (p : String) : M Nat :=
  mbind (fsReadFile p) (fun c => mret c.length)

/-- Copy a file (`fs.copyFile`). -/
def fsCopyFile (src dst : String) : M Unit :=
  mbind (fsReadFile src) (fun c => fsWriteFile dst c)

/-- Directory prefix strip for `fs.readdir`. -/
def stripDirPrefix (dir path : String) : Option String :=
  if (dir ++ "/").data.isPrefixOf path.data then
    some ⟨path.data.drop (dir ++ "/").data.length⟩
  else none

/-- List a directory (`fs.readdir`): names of files under `dir`, in
file-table order. -/
def fsReaddir (dir : String) : M (List String) := fun w =>
  (.ok (w.files.filterMap (fun pc => stripDirPrefix dir pc.1)), w)

/-- Fresh id (`crypto.randomUUID`), drawn from the id counter. -/
def freshId : M String := fun w =>
  (.ok ("backup-" ++ toString w.nextId), { w with nextId := w.nextId + 1 })

/-- Current time (`Date.now` / `new Date()`), drawn from `now`. -/
def mnow : M Nat := fun w => (.ok w.now, w)

/-- Lookup in the in-memory backup metadata map. -/
def metaLookup (id : String) : M (Option BackupMetadata) := fun w =>
  (.ok (alookup w.metaStore id), w)

/-- Insert into the in-memory backup metadata map. -/
def metaInsert (id : String) (meta : BackupMetadata) : M Unit := fun w =>
  (.ok (), { w with metaStore := aupsert w.metaStore id meta })

/-- Backup directory (`path.join(projectPath, '.nextjs-monitor-backups')`). -/
def backupDir (cfg : MonitorConfig) : String :=
  cfg.projectPath ++ "/.nextjs-monitor-backups"

/-- Metadata index file path. -/
def backupMetadataFile (cfg : MonitorConfig) : String :=
  backupDir cfg ++ "/metadata.json"

/-- Content checksum (`calculateChecksum`): SHA-256 is modelled by an
executable deterministic 64-bit rolling digest (both are deterministic
content digests admitting collisions; only determinism and
content-sensitivity are relied on). -/
def digest (s : String) : String :=
  toString (s.data.foldl (fun a c => (a * 131 + c.toNat) % (2 ^ 64)) 7)

/-- Serialization of the metadata map written to `metadata.json`
(`JSON.stringify` modelled by an executable encoding; the modelled
operations never parse it back). -/
def encodeMeta (ms : List (String × BackupMetadata)) : String :=
  String.intercalate ";" (ms.map (fun p => p.1 ++ ":" ++ p.2.checksum))

/-- `saveBackupMetadata` (its own failures are swallowed in the source;
the modelled write always succeeds). -/
def saveBackupMetadata (cfg : MonitorConfig) : M Unit := fun w =>
  (.ok (), { w with files := aupsert w.files (backupMetadataFile cfg) (encodeMeta w.metaStore) })

/-- Relative path below the project root (`path.relative` for the paths
this pipeline produces). -/
def relativeTo (root p : String) : String :=
  if (root ++ "/").data.isPrefixOf p.data then ⟨p.data.drop (root ++ "/").data.length⟩ else p

/-- Backup blob filename: relative path with separators replaced by
underscores, timestamp, id, `.backup` suffix. -/
def mkBackupName (cfg : MonitorConfig) (fp : String) (ts : Nat) (bid : String) : String :=
  ⟨(relativeTo cfg.projectPath fp).data.map (fun c => if c = '/' ∨ c = '\\' then '_' else c)⟩
    ++ "." ++ toString ts ++ "." ++ bid ++ ".backup"

/-- `AutoFixer.createEnhancedBackup`: read the original bytes, record
metadata (id, checksum, size), copy the bytes into the backup store and
persist the index.  Failures (unreadable file) are rethrown. -/
def createEnhancedBackup (cfg : MonitorConfig) (filePath fixType description : String) :
    M String :=
  mbind (fsReadFile filePath) (fun content =>
  mbind (fsStatSize filePath) (fun size =>
  mbind freshId (fun backupId =>
  mbind mnow (fun ts =>
  let checksum := digest content
  let backupFileName := mkBackupName cfg filePath ts backupId
  let backupPath := backupDir cfg ++ "/" ++ backupFileName
  mbind (fsCopyFile filePath backupPath) (fun _ =>
  mbind (metaInsert backupId
    { id := backupId, filePath := filePath, timestamp := ts, originalSize := size,
      checksum := checksum, fixType := fixType, description := description }) (fun _ =>
  mbind (saveBackupMetadata cfg) (fun _ =>
  mret backupId)))))))

/-- `AutoFixer.validateBackup`: metadata present, blob present, stored
bytes re-hash to the recorded checksum; any failure yields false. -/
def validateBackup (cfg : MonitorConfig) (backupId : String) : M Bool :=
  mtry
    (mbind (metaLookup backupId) (fun mo =>
      match mo with
      | none => mret false
      | some meta =>
        mbind (fsReaddir (backupDir cfg)) (fun names =>
          match names.find? (fun n => strContains n backupId) with
          | none => mret false
          | some name =>
            mbind (fsReadFile (backupDir cfg ++ "/" ++ name)) (fun content =>
              mret (digest content = meta.checksum)))))
    (fun _ => mret false)

/-- `AutoFixer.restoreEnhancedBackup`: locate metadata and blob,
re-verify integrity, then copy the blob back over the original path;
missing or corrupt backups throw. -/
def restoreEnhancedBackup (cfg : MonitorConfig) (backupId : String) : M Unit :=
  mbind (metaLookup backupId) (fun mo =>
    match mo with
    | none => mthrow ("Backup " ++ backupId ++ " not found in metadata")
    | some meta =>
      mbind (fsReaddir (backupDir cfg)) (fun names =>
        match names.find? (fun n => strContains n backupId) with
        | none => mthrow ("Backup file for " ++ backupId ++ " not found")
        | some name =>
          mbind (validateBackup cfg backupId) (fun ok =>
            if ok then fsCopyFile (backupDir cfg ++ "/" ++ name) meta.filePath
            else mthrow ("Backup " ++ backupId ++ " failed integrity check"))))

/-- `AutoFixer.getTypeScriptFixStrategy`: cascade of message checks. -/
def getTypeScriptFixStrategy (e : ClassifiedError) : Option FixStrategy :=
  let message := jsToLower e.message
  (if strContains message "cannot find name" || strContains message "is not defined" then
    match regexFind [.litCI "Cannot find name '", .noneOfPlus ['\''], .lit "'"] e.message with
    | some ps =>
      some { type := "add_import", target := some (pieceAt ps 1),
             description := "Add import for '" ++ pieceAt ps 1 ++ "'" }
    | none => none
  else none) <|>
  (if strContains message "parameter" && strContains message "implicitly has an 'any' type" then
    some { type := "add_type_annotation", target := none,
           description := "Add explicit type annotation for parameter" }
  else none) <|>
  (if strContains message "function" &&
      (strContains message "return type" || strContains message "implicitly has an 'any' return type") then
    some { type := "add_return_type", target := none,
           description := "Add explicit return type annotation" }
  else none) <|>
  (if strContains message "property" && strContains message "does not exist on type" then
    match regexFind [.litCI "Property '", .noneOfPlus ['\''], .litCI "' does not exist on type"] e.message with
    | some ps =>
      some { type := "fix_property_access", target := some (pieceAt ps 1),
             description := "Fix property access for '" ++ pieceAt ps 1 ++ "'" }
    | none => none
  else none) <|>
  (if strContains message "type assertion" ||
      strContains message "could be instantiated with a different subtype" then
    some { type := "add_type_assertion", target := none,
           description := "Add type assertion to resolve type mismatch" }
  else none) <|>
  (if strContains message "object is possibly 'null'" ||
      strContains message "object is possibly 'undefined'" then
    some { type := "add_null_check", target := none, description := "Add null/undefined check" }
  else none) <|>
  (if strContains message "is declared but never used" || strContains message "unused" then
    some { type := "remove_unused_variable", target := none,
           description := "Remove unused variable declaration" }
  else none) <|>
  (if strContains message "is missing in type" && strContains message "but required in type" then
    match regexFind [.litCI "Property '", .noneOfPlus ['\''], .litCI "' is missing in type"] e.message with
    | some ps =>
      some { type := "add_missing_property", target := some (pieceAt ps 1),
             description := "Add missing property '" ++ pieceAt ps 1 ++ "'" }
    | none => none
  else none) <|>
  (if strContains message "module" &&
      (strContains message "cannot be resolved" || strContains message "could not be resolved") then
    match regexFind [.litCI "Module '", .noneOfPlus ['\''], .lit "'"] e.message with
    | some ps =>
      some { type := "fix_module_resolution", target := some (pieceAt ps 1),
             description := "Fix module resolution for '" ++ pieceAt ps 1 ++ "'" }
    | none => none
  else none)

/-- `AutoFixer.getImportFixStrategy`. -/
def getImportFixStrategy (e : ClassifiedError) : Option FixStrategy :=
  let message := jsToLower e.message
  (if strContains message "module not found" || strContains message "cannot resolve module" then
    match regexFind [.lit "Cannot resolve module '", .noneOfPlus ['\''], .lit "'"] e.message with
    | some ps =>
      some { type := "install_dependency", target := some (pieceAt ps 1),
             description := "Install missing dependency '" ++ pieceAt ps 1 ++ "'" }
    | none => none
  else none) <|>
  (if strContains message "file extension" || strContains message ".js extension" then
    some { type := "fix_import_extension", target := none,
           description := "Fix import file extension" }
  else none)

/-- `AutoFixer.getBuildFixStrategy`. -/
def getBuildFixStrategy (e : ClassifiedError) : Option FixStrategy :=
  let message := jsToLower e.message
  if strContains message "next.config" then
    some { type := "fix_nextjs_config", target := none, description := "Fix Next.js configuration" }
  else if strContains message "package.json" then
    some { type := "fix_package_json", target := none, description := "Fix package.json configuration" }
  else none

/-- `isNextJSAppRouterIssue`. -/
def isNextJSAppRouterIssue (e : ClassifiedError) : Bool :=
  let message := jsToLower e.message
  let filePath := jsToLower e.file
  strContains filePath "/app/" &&
    (strContains message "cannot use router" ||
     strContains message "userouter is not defined" ||
     strContains message "use client" ||
     strContains message "server component" ||
     strContains message "client component")

/-- `getNextJSAppRouterFix`. -/
def getNextJSAppRouterFix (e : ClassifiedError) : FixStrategy :=
  let message := jsToLower e.message
  if strContains message "userouter" || strContains message "router" || strContains message "use client" then
    { type := "add_use_client_directive", target := none,
      description := "Add \"use client\" directive for client-side router usage" }
  else
    { type := "fix_nextjs_app_router", target := none,
      description := "Fix NextJS App Router usage pattern" }

/-- `isClientComponentIssue`. -/
def isClientComponentIssue (e : ClassifiedError) : Bool :=
  let message := jsToLower e.message
  strContains message "usestate" || strContains message "useeffect" ||
  strContains message "onclick" || strContains message "event handler" ||
  strContains message "use client" || strContains message "browser api"

/-- `getClientComponentFix`. -/
def getClientComponentFix (_e : ClassifiedError) : FixStrategy :=
  { type := "add_use_client_directive", target := none,
    description := "Add \"use client\" directive for client-side features" }

/-- `isAPIRouteIssue`. -/
def isAPIRouteIssue (e : ClassifiedError) : Bool :=
  let message := jsToLower e.message
  let filePath := jsToLower e.file
  strContains filePath "/api/" &&
    (strContains message "response" || strContains message "request" ||
     strContains message "res." || strContains message "req." ||
     strContains message "nextapiresponse" || strContains message "nextapirequest")

/-- `getAPIRouteFix`. -/
def getAPIRouteFix (e : ClassifiedError) : FixStrategy :=
  let message := jsToLower e.message
  if strContains message "missing return" || strContains message "response" then
    { type := "add_api_response", target := none, description := "Add proper API response handling" }
  else
    { type := "fix_api_route_handler", target := none,
      description := "Fix NextJS API route handler pattern" }

/-- `isImageOptimizationIssue` (JS `&&` binds tighter than `||`). -/
def isImageOptimizationIssue (e : ClassifiedError) : Bool :=
  let message := jsToLower e.message
  strContains message "next/image" ||
  (strContains message "image" && strContains message "optimization") ||
  (strContains message "img" && strContains message "tag") ||
  strContains message "priority" ||
  (strContains message "alt" && strContains message "attribute")

/-- `getImageOptimizationFix`. -/
def getImageOptimizationFix (e : ClassifiedError) : FixStrategy :=
  let message := jsToLower e.message
  if strContains message "alt" then
    { type := "add_alt_attribute", target := none,
      description := "Add alt attribute to image component" }
  else if strContains message "priority" then
    { type := "add_priority_prop", target := none,
      description := "Add priority prop to above-fold images" }
  else
    { type := "convert_to_next_image", target := none,
      description := "Convert img tag to Next.js Image component" }

/-- `isReactHookIssue`. -/
def isReactHookIssue (e : ClassifiedError) : Bool :=
  let message := jsToLower e.message
  strContains message "hook" || strContains message "useeffect" ||
  strContains message "usestate" || strContains message "dependency array" ||
  strContains message "exhaustive-deps"

/-- `getReactHookFix`. -/
def getReactHookFix (e : ClassifiedError) : FixStrategy :=
  let message := jsToLower e.message
  if strContains message "dependency" || strContains message "exhaustive-deps" then
    { type := "fix_hook_dependencies", target := none,
      description := "Fix useEffect dependency array" }
  else if strContains message "hook" && strContains message "component" then
    { type := "move_hook_to_component", target := none,
      description := "Move hook usage inside React component" }
  else
    { type := "fix_hook_usage", target := none, description := "Fix React Hook usage pattern" }

/-- `isMissingKeyPropIssue`. -/
def isMissingKeyPropIssue (e : ClassifiedError) : Bool :=
  let message := jsToLower e.message
  (strContains message "key" && strContains message "prop") ||
  (strContains message "unique" && strContains message "key") ||
  (strContains message "list" && strContains message "key")

/-- `isConsoleStatementIssue`. -/
def isConsoleStatementIssue (e : ClassifiedError) : Bool :=
  let message := jsToLower e.message
  strContains message "console" || strContains message "no-console" ||
  strContains message "unexpected console statement"

/-- `isEnvironmentVariableIssue`. -/
def isEnvironmentVariableIssue (e : ClassifiedError) : Bool :=
  let message := jsToLower e.message
  strContains message "process.env" || strContains message "environment variable" ||
  strContains message "next_public_" || strContains message "env variable"

/-- `isStrictModeIssue`. -/
def isStrictModeIssue (e : ClassifiedError) : Bool :=
  let message := jsToLower e.message
  strContains message "strict mode" || strContains message "exactoptionalpropertytypes" ||
  strContains message "optional property" ||
  (strContains message "undefined" && strContains message "type")

/-- `isUnusedImportIssue`. -/
def isUnusedImportIssue (e : ClassifiedError) : Bool :=
  let message := jsToLower e.message
  strContains message "unused import" || strContains message "is imported but never used" ||
  strContains message "no-unused-imports"

/-- `AutoFixer.getCustomFixStrategy`: the NextJS/React idiom cascade. -/
def getCustomFixStrategy (e : ClassifiedError) : Option FixStrategy :=
  if isNextJSAppRouterIssue e then some (getNextJSAppRouterFix e)
  else if isClientComponentIssue e then some (getClientComponentFix e)
  else if isAPIRouteIssue e then some (getAPIRouteFix e)
  else if isImageOptimizationIssue e then some (getImageOptimizationFix e)
  else if isReactHookIssue e then some (getReactHookFix e)
  else if isMissingKeyPropIssue e then
    some { type := "add_key_prop", target := none,
           description := "Add unique key prop to list items" }
  else if isConsoleStatementIssue e then
    some { type := "remove_console_statement", target := none,
           description := "Remove console statement for production" }
  else if isEnvironmentVariableIssue e then
    some { type := "fix_env_variable_usage", target := none,
           description := "Fix environment variable usage pattern" }
  else if isStrictModeIssue e then
    some { type := "fix_strict_mode_types", target := none,
           description := "Fix TypeScript strict mode type issues" }
  else if isUnusedImportIssue e then
    some { type := "remove_unused_import", target := none,
           description := "Remove unused import statement" }
  else none

/-- `AutoFixer.getFixStrategy`: dispatch by error category. -/
def getFixStrategy (e : ClassifiedError) : Option FixStrategy :=
  match e.type with
  | .typescript => getTypeScriptFixStrategy e
  | .importErr => getImportFixStrategy e
  | .build => getBuildFixStrategy e
  | _ => getCustomFixStrategy e

/-- Allow-list of `canFixInSafeMode`. -/
def safeFixes : List String :=
  ["remove_unused_import", "remove_console_statement", "add_import", "fix_import_extension"]

/-- Deny-list of `canFixInSafeMode` (the conservative-mode deny-list). -/
def complexFixes : List String :=
  ["add_type_assertion", "fix_nextjs_config", "fix_package_json", "install_dependency",
   "convert_to_next_image", "fix_api_route_handler"]

/-- Simple type fixes allowed by `canFixInSafeMode`. -/
def simpleTypeFixes : List String :=
  ["add_type_annotation", "add_return_type", "add_null_check"]

/-- External tool behaviour the pipeline delegates to (ESLint instance
presence and verdicts, the JS parse probe); quantified over in the
theorems. -/
structure ExternalTools where
  eslintAvailable : Bool
  jsSyntaxProbe : String → Option String
  eslintVerdict : String → Option String

/-- Test whether a resolved strategy's tag is on a list (the
`strategy && list.includes(strategy.type)` idiom). -/
def stratTypeIn (strategy : Option FixStrategy) (l : List String) : Bool :=
  match strategy with
  | some s => l.contains s.type
  | none => false

/-- `AutoFixer.canFixInSafeMode`: allow-list, then the ESLint bypass,
then the deny-list, then simple type fixes, else blocked. -/
def canFixInSafeMode (ext : ExternalTools) (e : ClassifiedError) : Bool :=
  let strategy := getFixStrategy e
  if stratTypeIn strategy safeFixes then true
  else if e.type = .eslint && ext.eslintAvailable then true
  else if stratTypeIn strategy complexFixes then false
  else if stratTypeIn strategy simpleTypeFixes then true
  else false

/-- Risk levels of `assessFixRisk`. -/
inductive Risk where
  | low
  | medium
  | high
deriving DecidableEq

/-- High-risk strategy tags. -/
def highRiskFixes : List String :=
  ["install_dependency", "fix_nextjs_config", "fix_package_json", "fix_api_route_handler",
   "convert_to_next_image", "fix_hook_usage", "move_hook_to_component"]

/-- Medium-risk strategy tags. -/
def mediumRiskFixes : List String :=
  ["add_type_assertion", "fix_property_access", "add_missing_property",
   "fix_module_resolution", "add_use_client_directive", "fix_nextjs_app_router"]

/-- Tags the custom (framework-idiom) resolver can produce, in the
order of its cascade. -/
def customStrategyTags : List String :=
  ["add_use_client_directive", "fix_nextjs_app_router", "add_api_response",
   "fix_api_route_handler", "add_alt_attribute", "add_priority_prop",
   "convert_to_next_image", "fix_hook_dependencies", "move_hook_to_component",
   "fix_hook_usage", "add_key_prop", "remove_console_statement",
   "fix_env_variable_usage", "fix_strict_mode_types", "remove_unused_import"]

/-- `AutoFixer.assessFixRisk`. -/
def assessFixRisk (_e : ClassifiedError) (strategy : FixStrategy) : Risk :=
  if highRiskFixes.contains strategy.type then .high
  else if mediumRiskFixes.contains strategy.type then .medium
  else .low

/-- `AutoFixer.generateFixDescription` (pure). -/
def generateFixDescription (e : ClassifiedError) (strategy : FixStrategy) : String :=
  let location := e.file ++ ":" ++ toString e.location.line ++ ":" ++ toString e.location.column
  if strategy.type = "add_import" then
    "Add import statement for '" ++ (strategy.target.getD "undefined") ++ "' at the top of " ++ location
  else if strategy.type = "add_type_annotation" then
    "Add type annotation to parameter at " ++ location
  else if strategy.type = "add_return_type" then
    "Add return type annotation to function at " ++ location
  else if strategy.type = "remove_unused_variable" then
    "Remove unused variable declaration at " ++ location
  else if strategy.type = "remove_unused_import" then
    "Remove unused import statement at " ++ location
  else if strategy.type = "remove_console_statement" then
    "Remove console statement at " ++ location
  else if strategy.type = "add_null_check" then
    "Add null/undefined check at " ++ location
  else if strategy.type = "fix_property_access" then
    "Fix property access with optional chaining at " ++ location
  else if strategy.type = "add_use_client_directive" then
    "Add \"use client\" directive to " ++ e.file
  else
    "Apply " ++ strategy.description ++ " at " ++ location

/-- Preview outcome of `generateFixPreview`. -/
structure FixPreview where
  canProceed : Bool
  reason : Option String
  preview : Option String
deriving DecidableEq

/-- `AutoFixer.generateFixPreview`: strategy lookup, risk gate, size
gate; any thrown error becomes a cannot-proceed verdict. -/
def generateFixPreview (ext : ExternalTools) (e : ClassifiedError) : M FixPreview :=
  mtry
    (match getFixStrategy e with
     | none => mret { canProceed := false, reason := some "No fix strategy available", preview := none }
     | some strategy =>
       if assessFixRisk e strategy = .high then
         mret { canProceed := false,
                reason := some ("High-risk fix: " ++ strategy.description ++ ". Manual intervention recommended."),
                preview := none }
       else
         let preview := generateFixDescription e strategy
         mbind (fsStatSize e.file) (fun size =>
           if 50 * 1024 < size then
             mret { canProceed := false,
                    reason := some ("File too large (" ++ toString size ++ " bytes) for safe auto-fix. Manual review recommended."),
                    preview := some preview }
           else mret { canProceed := true, reason := none, preview := some preview }))
    (fun m => mret { canProceed := false,
                     reason := some ("Preview generation failed: " ++ m), preview := none })

/-- Result of `validateFix` and its sub-validators. -/
structure ValidationResult where
  isValid : Bool
  error : Option String
deriving DecidableEq

/-- `AutoFixer.validateSyntax`: read the file; for `.js`/`.jsx` run the
JS parse probe; read failures yield an invalid verdict. -/
def validateSyntax (ext : ExternalTools) (filePath : String) : M ValidationResult :=
  mtry
    (mbind (fsReadFile filePath) (fun content =>
      if ".js".data.isSuffixOf filePath.data ∨ ".jsx".data.isSuffixOf filePath.data then
        match ext.jsSyntaxProbe content with
        | some msg => mret { isValid := false, error := some msg }
        | none => mret { isValid := true, error := none }
      else mret { isValid := true, error := none }))
    (fun m => mret { isValid := false, error := some m })

/-- Malformed-token patterns of `validateTypeScript`, in source order. -/
def tsCommonIssues : List (List Tok × String) :=
  [ ([.wordB, .lit "any", .wsPlus, .lit "any", .wordB], "Duplicate \"any\" type"),
    ([.lit ":", .wsStar, .lit ":", .wsStar], "Double colon in type annotation"),
    ([.lit "\x7d", .wsStar, .lit "\x7b"], "Missing semicolon or comma between blocks"),
    ([.lit "import", .wsStar, .lit "\x7b", .wsStar, .lit "\x7d", .wsStar, .lit "from"], "Empty import statement"),
    ([.lit "export", .wsStar, .lit "\x7b", .wsStar, .lit "\x7d", .wsStar], "Empty export statement") ]

/-- `AutoFixer.validateTypeScript`: scan the content for the malformed
token sequences. -/
def validateTypeScript (filePath : String) : M ValidationResult :=
  mtry
    (mbind (fsReadFile filePath) (fun content =>
      match tsCommonIssues.find? (fun pr => regexTest pr.1 content) with
      | some pr => mret { isValid := false, error := some pr.2 }
      | none => mret { isValid := true, error := none }))
    (fun m => mret { isValid := false, error := some m })

/-- `AutoFixer.validateESLint`: delegate the fatal/parse verdict to the
external linter over the file content. -/
def validateESLint (ext : ExternalTools) (filePath : String) : M ValidationResult :=
  mtry
    (if !ext.eslintAvailable then mret { isValid := true, error := none }
     else
       mbind (fsReadFile filePath) (fun content =>
         match ext.eslintVerdict content with
         | some msg => mret { isValid := false, error := some msg }
         | none => mret { isValid := true, error := none }))
    (fun m => mret { isValid := false, error := some m })

/-- `AutoFixer.validateFix`: syntax probe, TypeScript token scan, ESLint
pass, post-fix size ceiling; first failure short-circuits, any thrown
error yields an invalid verdict. -/
def validateFix (cfg : MonitorConfig) (ext : ExternalTools) (filePath : String) :
    M ValidationResult :=
  mtry
    (mbind (validateSyntax ext filePath) (fun sv =>
      if !sv.isValid then
        mret { isValid := false, error := some ("Syntax error: " ++ sv.error.getD "undefined") }
      else
        mbind
          (if ".ts".data.isSuffixOf filePath.data ∨ ".tsx".data.isSuffixOf filePath.data then
            validateTypeScript filePath
          else mret { isValid := true, error := none }) (fun tv =>
        if !tv.isValid then
          mret { isValid := false, error := some ("TypeScript error: " ++ tv.error.getD "undefined") }
        else
          mbind
            (if ext.eslintAvailable then validateESLint ext filePath
             else mret { isValid := true, error := none }) (fun lv =>
          if !lv.isValid then
            mret { isValid := false, error := some ("ESLint error: " ++ lv.error.getD "undefined") }
          else
            mbind (fsStatSize filePath) (fun size =>
              let maxFileSize := if cfg.maxFileSizeAfterFix = 0 then 1024 * 1024 else cfg.maxFileSizeAfterFix
              if maxFileSize < size then
                mret { isValid := false,
                       error := some ("File size " ++ toString size ++ " exceeds maximum allowed size " ++ toString maxFileSize) }
              else mret { isValid := true, error := none })))))
    (fun m => mret { isValid := false, error := some m })

/-- `AutoFixer.applyFix`: safe-mode gate, preview gate, backup, apply,
validate, rollback.  The strategy-application families dispatched by
`applyFixInternal` mutate only the diagnostic's file and are taken as
the explicit parameter `inner`, so every theorem about this
orchestration is universally quantified over their behaviour. -/
def applyFix (cfg : MonitorConfig) (ext : ExternalTools)
    (inner : ClassifiedError → M FixResult) (e : ClassifiedError) : M FixResult :=
  if cfg.safeMode && !canFixInSafeMode ext e then
    mret { success := false,
           error := some "Fix blocked by safe mode - requires manual intervention",
           file := e.file, applied := false, changes := none }
  else
    mbind
      (if cfg.safeMode then generateFixPreview ext e
       else mret { canProceed := true, reason := none, preview := none }) (fun preview =>
    if !preview.canProceed then
      mret { success := false,
             error := some ("Safe mode prevention: " ++ preview.reason.getD "undefined"),
             file := e.file, applied := false, changes := none }
    else
      mbind
        (if cfg.backupEnabled then
          mbind (createEnhancedBackup cfg e.file e.type.str
            ("Fix for " ++ e.type.str ++ " error: " ++ ⟨e.message.data.take 100⟩))
            (fun i => mret (some i))
         else mret (none : Option String)) (fun backupId =>
      mtry
        (mbind (inner e) (fun result =>
          if result.success && cfg.validateFixes then
            mbind (validateFix cfg ext e.file) (fun v =>
              if !v.isValid then
                mbind
                  (match backupId with
                   | some i => restoreEnhancedBackup cfg i
                   | none => mret ()) (fun _ =>
                mret { success := false,
                       error := some ("Fix validation failed: " ++ v.error.getD "undefined"),
                       file := e.file, applied := false, changes := none })
              else mret result)
          else mret result))
        (fun m =>
          mbind
            (match backupId with
             | some i => restoreEnhancedBackup cfg i
             | none => mret ()) (fun _ =>
          mret { success := false, error := some m,
                 file := e.file, applied := false, changes := none }))))

/-- Shape invariant of a consumed piece per token (used to reason about
successful matches). -/
def TokOK : Tok → List Char → Prop
  | .lit s, p => p = s.data
  | .litCI s, p => p.length = s.data.length
  | .digits, p => p ≠ [] ∧ ∀ c ∈ p, isDigitC c = true
  | .dotPlus, p => p ≠ []
  | .dotPlusSuf sufs, p => p ≠ [] ∧ ∃ suf ∈ sufs, suf.data <:+ p
  | .noneOfPlus banned, p => p ≠ [] ∧ ∀ c ∈ p, banned.contains c = false
  | .altLit ss, p => ∃ s ∈ ss, p = s.data
  | .wsPlus, p => p ≠ []
  | .wsStar, _ => True
  | .wordB, p => p = []

/-- Portion of the world the backup store consists of: the files under
the backup directory (in listing order) plus the in-memory metadata
map.  The fix families applied by `applyFixInternal` write only the
diagnostic's own file, so they preserve this view. -/
def backupView (cfg : MonitorConfig) (w : World) : List (String × String) × List (String × BackupMetadata) :=
  (w.files.filter (fun pc => (backupDir cfg ++ "/").data.isPrefixOf pc.1.data), w.metaStore)

/-- Sample configuration with conservative mode on. -/
def cfgSafe : MonitorConfig :=
  { projectPath := "proj", autoFix := true, safeMode := true, backupEnabled := true,
    validateFixes := true, backupRetentionDays := 7, maxFileSizeAfterFix := 1024 * 1024 }

/-- Sample configuration with conservative mode off. -/
def cfgOpen : MonitorConfig :=
  { cfgSafe with safeMode := false }

/-- Sample external tools: ESLint present, probes silent. -/
def extOn : ExternalTools :=
  { eslintAvailable := true, jsSyntaxProbe := fun _ => none, eslintVerdict := fun _ => none }

/-- Sample classified error builder. -/
def mkClassified (i : String) (t : ErrorType) (msg f : String) : ClassifiedError :=
  { id := i, type := t, severity := .error, message := msg, code := none,
    location := { file := f, line := 3, column := 1 }, rule := none,
    fixCapability := .noFix, raw := msg, priority := 50, groupId := none,
    relatedErrors := [], suggestedFix := none, autoFixable := false, file := f }

/-- Sample world: one project file, empty backup store. -/
def wDemo : World :=
  { files := [("proj/a.ts", "let x = 1")], metaStore := [], nextId := 0, now := 5 }

/-- Inner fix step that throws (models an apply exception). -/
def innerThrow : ClassifiedError → M FixResult := fun _ => mthrow "boom"

/-- Inner fix step that rewrites the diagnostic's file and succeeds. -/
def innerWrite : ClassifiedError → M FixResult := fun e =>
  mbind (fsWriteFile e.file "fixed!")
    (fun _ => mret { success := true, file := e.file, applied := true, error := none, changes := none })

/-- Sample parsed error builder (for classifier witnesses). -/
def mkParsed (i : String) (c : Option String) (m : String) : ParsedError :=
  { id := i, type := .typescript, severity := .error, message := m, code := c,
    location := { file := "a.ts", line := 1, column := 1 }, rule := none,
    fixCapability := .noFix, raw := m }

/-- The log line of the worked example. -/
def exampleLine : String :=
  "Button.tsx(10,15): error TS2322: Type 'string' is not assignable to type 'number'."

/-- Metadata record `createEnhancedBackup` stores. -/
def mkBackupMeta (fp ft d c0 bid : String) (ts : Nat) : BackupMetadata :=
  { id := bid, filePath := fp, timestamp := ts, originalSize := c0.length,
    checksum := digest c0, fixType := ft, description := d }

/-- World after a successful `createEnhancedBackup` of a file holding
`c0`: the blob is copied in, the metadata map extended, the index file
rewritten, the id counter advanced. -/
def backupWorld (cfg : MonitorConfig) (fp ft d c0 : String) (w : World) : World :=
  let bid := "backup-" ++ toString w.nextId
  let bname := mkBackupName cfg fp w.now bid
  let ms := aupsert w.metaStore bid (mkBackupMeta fp ft d c0 bid w.now)
  { files := aupsert (aupsert w.files (backupDir cfg ++ "/" ++ bname) c0)
      (backupMetadataFile cfg) (encodeMeta ms),
    metaStore := ms, nextId := w.nextId + 1, now := w.now }

/-- Names of the files in the backup directory, in listing order (the
value `fsReaddir (backupDir cfg)` returns). -/
def dirNames (cfg : MonitorConfig) (w : World) : List String :=
  w.files.filterMap (fun pc => stripDirPrefix (backupDir cfg) pc.1)

/-- Sample diagnostic living in the sample world's file. -/
def eDemo : ClassifiedError :=
  mkClassified "e1" .typescript "type mismatch" "proj/a.ts"

/-! Theorems.  Each claim of the specification corresponds to exactly
one theorem below (with a witness where the theorem carries
hypotheses); shared helper lemmas precede them. -/

/-- C10: the session coordinator's success ratio is division-guarded:
after any nonempty sequence of `incrementFixesApplied` calls the rate
equals `(fixesApplied / errorsDetected) * 100` when `errorsDetected > 0`
and is exactly 0 when `errorsDetected = 0`; `resetMetrics` restarts it
at 0, so the metric is always a well-defined number. -/
theorem C10_successRate_division_guarded (m : MonitorMetrics) (n : Nat) (hn : 0 < n) :
    (incrementFixesApplied^[n] m).successRate =
      (if 0 < (incrementFixesApplied^[n] m).errorsDetected
       then ((incrementFixesApplied^[n] m).fixesApplied : ℚ) /
              ((incrementFixesApplied^[n] m).errorsDetected : ℚ) * 100
       else 0) ∧
    ((incrementFixesApplied^[n] m).errorsDetected = 0 →
      (incrementFixesApplied^[n] m).successRate = 0) ∧
    resetMetrics.successRate = 0 := by
  obtain ⟨k, rfl⟩ : ∃ k, n = k + 1 := ⟨n - 1, by omega⟩
  rw [Function.iterate_succ_apply']
  set m1 := incrementFixesApplied^[k] m with hm1
  constructor
  · simp [incrementFixesApplied]
  · constructor
    · intro h0
      simp [incrementFixesApplied] at h0 ⊢
      omega
    · rfl

/-- Witness for C10 at a concrete metrics value and two increments. -/
theorem C10_successRate_division_guarded_witness :
    0 < 2 ∧
    ((incrementFixesApplied^[2] { errorsDetected := 4, fixesApplied := 0, successRate := 0, uptime := 0 }).successRate =
      (if 0 < (incrementFixesApplied^[2] { errorsDetected := 4, fixesApplied := 0, successRate := 0, uptime := 0 }).errorsDetected
       then ((incrementFixesApplied^[2] { errorsDetected := 4, fixesApplied := 0, successRate := 0, uptime := 0 }).fixesApplied : ℚ) /
              ((incrementFixesApplied^[2] { errorsDetected := 4, fixesApplied := 0, successRate := 0, uptime := 0 }).errorsDetected : ℚ) * 100
       else 0) ∧
    ((incrementFixesApplied^[2] { errorsDetected := 4, fixesApplied := 0, successRate := 0, uptime := 0 }).errorsDetected = 0 →
      (incrementFixesApplied^[2] { errorsDetected := 4, fixesApplied := 0, successRate := 0, uptime := 0 }).successRate = 0) ∧
    resetMetrics.successRate = 0) :=
  ⟨by decide,
   C10_successRate_division_guarded
     { errorsDetected := 4, fixesApplied := 0, successRate := 0, uptime := 0 } 2 (by decide)⟩

/-- C9 counterexample: a second `start` issued while the first has not
resolved is rejected with "Process is already starting", which does not
mention "already running" as the claim states. -/
theorem C9_second_start_message_counterexample :
    pmStartBegin PMState.initial "proj" none =
      .ok { process := some { killed := false }, projectPath := some "proj", options := none,
            isStarting := true, spawnCount := 1 } ∧
    pmStartBegin
      { process := some { killed := false }, projectPath := some "proj", options := none,
        isStarting := true, spawnCount := 1 } "proj" none =
      .error "Process is already starting" ∧
    strContains "Process is already starting" "already running" = false := by
  refine ⟨rfl, rfl, ?_⟩
  decide

/-- C9 (amended): a `start` issued while a previous `start` is pending
rejects with the "already starting" error; a `start` issued while the
process is running (and no start pending) rejects with the "already
running" error; and `restart` on a never-started supervisor rejects
with the no-stored-path error, leaving the state — in particular the
spawn count — unchanged, so no process is spawned. -/
theorem C9_start_restart_guards (s s1 : PMState) (path : String)
    (opts : Option DevServerOptions)
    (h1 : pmStartBegin s path opts = .ok s1) :
    (∀ path2 opts2, pmStartBegin s1 path2 opts2 = .error "Process is already starting") ∧
    (∀ s2 : PMState, s2.isStarting = false → pmIsRunning s2 = true →
      ∀ path2 opts2, pmStartBegin s2 path2 opts2 = .error "Process is already running") ∧
    (∀ s3 : PMState, s3.process = none → s3.projectPath = none →
      ∀ ev, pmRestart s3 ev = (.error "Cannot restart: no project path stored", s3)) := by
  refine ⟨?_, ?_, ?_⟩
  · intro path2 opts2
    have hstart : s1.isStarting = true := by
      by_cases hs : s.isStarting
      · simp [pmStartBegin, hs] at h1
      · by_cases hr : pmIsRunning s
        · simp [pmStartBegin, hs, hr] at h1
        · simp [pmStartBegin, hs, hr] at h1
          rw [← h1]
    unfold pmStartBegin
    rw [hstart]
    simp
  · intro s2 hns hr path2 opts2
    unfold pmStartBegin
    rw [hns, hr]
    simp
  · intro s3 hp hpp ev
    have hnr : pmIsRunning s3 = false := by
      unfold pmIsRunning
      rw [hp]
    unfold pmRestart
    rw [hnr]
    simp [hpp]

/-- Witness for C9's amended theorem at the initial supervisor state. -/
theorem C9_start_restart_guards_witness :
    pmStartBegin PMState.initial "proj" none =
      .ok { process := some { killed := false }, projectPath := some "proj", options := none,
            isStarting := true, spawnCount := 1 } ∧
    ((∀ path2 opts2, pmStartBegin
        { process := some { killed := false }, projectPath := some "proj", options := none,
          isStarting := true, spawnCount := 1 } path2 opts2 =
        .error "Process is already starting") ∧
     (∀ s2 : PMState, s2.isStarting = false → pmIsRunning s2 = true →
       ∀ path2 opts2, pmStartBegin s2 path2 opts2 = .error "Process is already running") ∧
     (∀ s3 : PMState, s3.process = none → s3.projectPath = none →
       ∀ ev, pmRestart s3 ev = (.error "Cannot restart: no project path stored", s3))) :=
  ⟨rfl, C9_start_restart_guards PMState.initial _ "proj" none rfl⟩

/-- C5: `calculatePriority` always lands in [1,100], and for two
otherwise identical errors the warning-severity priority never exceeds
the error-severity priority. -/
theorem C5_priority_bounds_and_monotonicity (e : ParsedError) (rule : ClassificationRule) :
    (1 ≤ calculatePriority e rule ∧ calculatePriority e rule ≤ 100) ∧
    calculatePriority { e with severity := .warning } rule ≤
      calculatePriority { e with severity := .error } rule := by
  unfold calculatePriority
  cases hf : rule.messagePatternsForPriority.find? (fun pr => rtest pr.alts e.message) with
  | none =>
    refine ⟨⟨?_, ?_⟩, ?_⟩ <;> simp [hf] <;> split <;> omega
  | some pr =>
    refine ⟨⟨?_, ?_⟩, ?_⟩ <;> simp [hf] <;> split <;> omega

/-- C4: the example line parses as a TypeScript error diagnostic at
Button.tsx:10:15 with code TS2322, and the classifier ranks it at
priority exactly 70. -/
theorem C4_example_line_classification :
    (parseLogLine exampleLine).map
      (fun d => (d.type, d.severity, d.location.file, d.location.line, d.location.column, d.code)) =
      some (ErrorType.typescript, ErrorSeverity.error, "Button.tsx", 10, 15, some "TS2322") ∧
    (parseLogLine exampleLine).map (fun d => (classifyError d).priority) = some 70 := by
  constructor
  · rfl
  · rfl

/-- Helper: deduplication returns a sublist of its input (first-seen
order is preserved). -/
theorem deduplicateErrors_sublist (l : List ParsedError) (seen : List String) :
    (deduplicateErrors l seen).Sublist l := by
  induction l generalizing seen with
  | nil => simp [deduplicateErrors]
  | cons e es ih =>
    unfold deduplicateErrors
    split
    · exact (ih seen).cons e
    · exact (ih (errSig e :: seen)).cons₂ e

/-- Helper: no survivor of deduplication has a signature in `seen`. -/
theorem deduplicateErrors_not_seen (l : List ParsedError) (seen : List String) :
    ∀ f ∈ deduplicateErrors l seen, errSig f ∉ seen := by
  induction l generalizing seen with
  | nil => simp [deduplicateErrors]
  | cons e es ih =>
    intro f hf
    unfold deduplicateErrors at hf
    split at hf
    · exact ih seen f hf
    · rename_i hnc
      rcases List.mem_cons.mp hf with rfl | hf'
      · intro hmem
        exact hnc (by simpa using hmem)
      · intro hmem
        exact ih (errSig e :: seen) f hf' (List.mem_cons_of_mem _ hmem)

/-- Helper: the surviving signatures are pairwise distinct. -/
theorem deduplicateErrors_sig_nodup (l : List ParsedError) (seen : List String) :
    ((deduplicateErrors l seen).map errSig).Nodup := by
  induction l generalizing seen with
  | nil => simp [deduplicateErrors]
  | cons e es ih =>
    unfold deduplicateErrors
    split
    · exact ih seen
    · simp only [List.map_cons]
      refine List.Nodup.cons ?_ (ih _)
      intro hmem
      obtain ⟨f, hf, hsig⟩ := List.mem_map.mp hmem
      exact deduplicateErrors_not_seen es (errSig e :: seen) f hf
        (by rw [hsig]; exact List.mem_cons_self _ _)

/-- Helper: every input signature not already in `seen` is represented
in the output. -/
theorem deduplicateErrors_complete (l : List ParsedError) (seen : List String) :
    ∀ e ∈ l, errSig e ∈ seen ∨ ∃ f ∈ deduplicateErrors l seen, errSig f = errSig e := by
  induction l generalizing seen with
  | nil => simp
  | cons a as ih =>
    intro e he
    unfold deduplicateErrors
    rcases List.mem_cons.mp he with rfl | he'
    · split
      · rename_i hc
        exact Or.inl (by simpa using hc)
      · exact Or.inr ⟨e, List.mem_cons_self _ _, rfl⟩
    · split
      · rename_i hc
        rcases ih seen e he' with h | ⟨f, hf, hs⟩
        · exact Or.inl h
        · exact Or.inr ⟨f, hf, hs⟩
      · rcases ih (errSig a :: seen) e he' with h | ⟨f, hf, hs⟩
        · rcases List.mem_cons.mp h with heq | hseen
          · exact Or.inr ⟨a, List.mem_cons_self _ _, heq.symm⟩
          · exact Or.inl hseen
        · exact Or.inr ⟨f, List.mem_cons_of_mem _ hf, hs⟩

/-- Helper: each survivor is the first input element carrying its
signature (unless the signature was pre-seeded). -/
theorem deduplicateErrors_first (l : List ParsedError) (seen : List String) :
    ∀ f ∈ deduplicateErrors l seen,
      errSig f ∈ seen ∨ l.find? (fun x => decide (errSig x = errSig f)) = some f := by
  induction l generalizing seen with
  | nil => simp [deduplicateErrors]
  | cons a as ih =>
    intro f hf
    unfold deduplicateErrors at hf
    split at hf
    · rename_i hc
      rcases ih seen f hf with h | h
      · exact Or.inl h
      · have hnot := deduplicateErrors_not_seen as seen f hf
        have hne : ¬(errSig a = errSig f) := by
          intro heq
          exact hnot (heq ▸ (by simpa using hc))
        right
        rw [List.find?_cons]
        simp only [hne, decide_eq_false_iff_not.mpr hne]
        exact h
    · rcases List.mem_cons.mp hf with rfl | hf'
      · right
        rw [List.find?_cons]
        simp
      · have hnot := deduplicateErrors_not_seen as (errSig a :: seen) f hf'
        have hne : ¬(errSig a = errSig f) := by
          intro heq
          exact hnot (heq ▸ List.mem_cons_self _ _)
        rcases ih (errSig a :: seen) f hf' with h | h
        · exact absurd h hnot
        · right
          rw [List.find?_cons]
          simp only [decide_eq_false_iff_not.mpr hne]
          exact h

/-- Helper: the signature string is a function of the signature tuple. -/
theorem errSigTuple_congr {x y : ParsedError} (h : errSigTuple x = errSigTuple y) :
    errSig x = errSig y := by
  unfold errSigTuple at h
  obtain ⟨h1, h2, h3, h4⟩ : x.type = y.type ∧ x.message = y.message ∧
      x.location.file = y.location.file ∧ x.location.line = y.location.line := by
    simpa [Prod.ext_iff] using h
  unfold errSig
  rw [h1, h2, h3, h4]

/-- Helper: a whitespace-only character list passes through the ANSI
strip unchanged (the escape introducer is not whitespace). -/
theorem stripAnsiGo_all_ws (fuel : Nat) (cs : List Char) (h : ∀ c ∈ cs, isWs c = true) :
    stripAnsiGo fuel cs = cs := by
  induction fuel generalizing cs with
  | zero => rfl
  | succ n ih =>
    cases cs with
    | nil => rfl
    | cons c rest =>
      have hc : isWs c = true := h c (List.mem_cons_self _ _)
      have hne : ¬(c = '\x1b') := by
        intro heq
        rw [heq] at hc
        exact absurd hc (by decide)
      unfold stripAnsiGo
      rw [if_neg hne]
      rw [ih rest (fun d hd => h d (List.mem_cons_of_mem _ hd))]

/-- Helper: an empty trim means every character is whitespace. -/
theorem jsTrim_empty_all_ws (s : String) (h : (jsTrim s).isEmpty = true) :
    ∀ c ∈ s.data, isWs c = true := by
  have hdata : ((s.data.dropWhile isWs).reverse.dropWhile isWs).reverse = [] := by
    have := (String.isEmpty_iff _).mp h
    simpa [jsTrim, String.ext_iff] using this
  have hdrop2 : ∀ x ∈ (s.data.dropWhile isWs).reverse, isWs x = true :=
    List.dropWhile_eq_nil_iff.mp (List.reverse_eq_nil_iff.mp hdata)
  have hdrop : ∀ x ∈ s.data.dropWhile isWs, isWs x = true := by
    intro x hx
    exact hdrop2 x (List.mem_reverse.mpr hx)
  intro c hc
  rw [← List.takeWhile_append_dropWhile isWs s.data] at hc
  rcases List.mem_append.mp hc with h1 | h2
  · exact List.mem_takeWhile_imp h1
  · exact hdrop c h2

/-- Helper: a whitespace-only line produces no diagnostic. -/
theorem parseLogLine_blank (line : String) (h : (jsTrim line).isEmpty = true) :
    parseLogLine line = none := by
  have hall : ∀ c ∈ line.data, isWs c = true := jsTrim_empty_all_ws line h
  have hstrip : stripAnsi line.data = line.data := stripAnsiGo_all_ws _ _ hall
  have hclean : cleanLogLine line = jsTrim line := by
    unfold cleanLogLine
    rw [hstrip]
  unfold parseLogLine
  rw [hclean, (String.isEmpty_iff _).mp h]
  rfl

/-- C7: `parseLogBuffer` keeps at most one diagnostic per unique
(category, message, file, line) signature — the first-seen one, in
first-seen order (a sublist of the raw parse) — every raw diagnostic's
signature string is represented, and a buffer of only blank/whitespace
lines yields the empty list. -/
theorem C7_parseLogBuffer_dedup (buffer : String) :
    ((parseLogBuffer buffer).map errSigTuple).Nodup ∧
    (parseLogBuffer buffer).Sublist ((buffer.splitOn "\n").filterMap parseLogLine) ∧
    (∀ f ∈ parseLogBuffer buffer,
      ((buffer.splitOn "\n").filterMap parseLogLine).find?
        (fun x => decide (errSigTuple x = errSigTuple f)) = some f) ∧
    (∀ e ∈ (buffer.splitOn "\n").filterMap parseLogLine,
      ∃ f ∈ parseLogBuffer buffer, errSig f = errSig e) ∧
    ((∀ line ∈ buffer.splitOn "\n", (jsTrim line).isEmpty = true) → parseLogBuffer buffer = []) := by
  refine ⟨?_, ?_, ?_, ?_, ?_⟩
  · have hs := deduplicateErrors_sig_nodup ((buffer.splitOn "\n").filterMap parseLogLine) []
    have hp : List.Pairwise (fun a b => errSig a ≠ errSig b) (parseLogBuffer buffer) :=
      List.pairwise_map.mp hs
    exact List.pairwise_map.mpr
      (hp.imp (fun hab => fun htup => hab (errSigTuple_congr htup)))
  · exact deduplicateErrors_sublist _ _
  · intro f hf
    have hstr := deduplicateErrors_first _ [] f hf
    rcases hstr with h | h
    · exact absurd h (List.not_mem_nil _)
    · rw [List.find?_eq_some] at h ⊢
      obtain ⟨hpf, as, bs, hsplit, hforall⟩ := h
      refine ⟨by simp, as, bs, hsplit, ?_⟩
      intro a ha
      have := hforall a ha
      simp only [Bool.not_eq_true', decide_eq_false_iff_not] at this ⊢
      intro htup
      exact this (errSigTuple_congr htup)
  · intro e he
    rcases deduplicateErrors_complete _ [] e he with h | h
    · exact absurd h (List.not_mem_nil _)
    · exact h
  · intro hblank
    unfold parseLogBuffer
    have hraw : (buffer.splitOn "\n").filterMap parseLogLine = [] := by
      rw [List.filterMap_eq_nil]
      intro line hline
      exact parseLogLine_blank line (hblank line hline)
    rw [hraw]
    rfl

/-- Witness for C7 at a concrete buffer with duplicates and blanks. -/
theorem C7_parseLogBuffer_dedup_witness :
    ((parseLogBuffer "x failed\n\nx failed").map errSigTuple).Nodup ∧
    (parseLogBuffer "x failed\n\nx failed").Sublist
      ((("x failed\n\nx failed").splitOn "\n").filterMap parseLogLine) ∧
    (∀ f ∈ parseLogBuffer "x failed\n\nx failed",
      ((("x failed\n\nx failed").splitOn "\n").filterMap parseLogLine).find?
        (fun x => decide (errSigTuple x = errSigTuple f)) = some f) ∧
    (∀ e ∈ (("x failed\n\nx failed").splitOn "\n").filterMap parseLogLine,
      ∃ f ∈ parseLogBuffer "x failed\n\nx failed", errSig f = errSig e) ∧
    ((∀ line ∈ ("x failed\n\nx failed").splitOn "\n", (jsTrim line).isEmpty = true) →
      parseLogBuffer "x failed\n\nx failed" = []) :=
  C7_parseLogBuffer_dedup "x failed\n\nx failed"

/-- Helper: classification initializes the relation list to empty. -/
theorem classifyError_relatedErrors (pe : ParsedError) :
    (classifyError pe).relatedErrors = [] := by
  unfold classifyError
  cases classificationRules.find? (fun r => r.type = pe.type) <;> rfl

/-- Helper: classification keeps the diagnostic id. -/
theorem classifyError_id (pe : ParsedError) : (classifyError pe).id = pe.id := by
  unfold classifyError
  cases classificationRules.find? (fun r => r.type = pe.type) <;> rfl

/-- Helper: relating leaves the group key unchanged. -/
theorem relateOne_key (l : List ClassifiedError) (e : ClassifiedError) :
    groupKeyOf (relateOne l e) = groupKeyOf e := by
  unfold relateOne
  cases hk : groupKeyOf e with
  | none => exact hk
  | some g =>
    simp only
    split
    · exact hk
    · exact hk

/-- Helper: relating keeps the diagnostic id. -/
theorem relateOne_id (l : List ClassifiedError) (e : ClassifiedError) :
    (relateOne l e).id = e.id := by
  unfold relateOne
  cases hk : groupKeyOf e with
  | none => rfl
  | some g =>
    simp only
    split
    · rfl
    · rfl

/-- Helper: two distinct members of a filtered list force its length
above one. -/
theorem one_lt_length_of_two_mem {α : Type} {l : List α} {a b : α}
    (ha : a ∈ l) (hb : b ∈ l) (hne : a ≠ b) : 1 < l.length := by
  cases l with
  | nil => cases ha
  | cons x tl =>
    cases tl with
    | nil =>
      rcases List.mem_singleton.mp ha with rfl
      rcases List.mem_singleton.mp hb with rfl
      exact absurd rfl hne
    | cons y tl2 => simp [List.length_cons]

/-- Helper: the relation computed for a multi-member group contains the
id of every other member of that group. -/
theorem relateOne_mem_related (base : List ClassifiedError) (e1 e2 : ClassifiedError) (g : String)
    (h1 : groupKeyOf e1 = some g) (h2 : groupKeyOf e2 = some g)
    (hmem1 : e1 ∈ base) (hmem2 : e2 ∈ base) (hne : e2.id ≠ e1.id) :
    e2.id ∈ (relateOne base e1).relatedErrors := by
  have hin1 : e1 ∈ base.filter (fun x => groupKeyOf x = some g) :=
    List.mem_filter.mpr ⟨hmem1, by simp [h1]⟩
  have hin2 : e2 ∈ base.filter (fun x => groupKeyOf x = some g) :=
    List.mem_filter.mpr ⟨hmem2, by simp [h2]⟩
  have hvne : e2 ≠ e1 := fun hv => hne (by rw [hv])
  unfold relateOne
  rw [h1]
  simp only
  rw [if_pos (one_lt_length_of_two_mem hin2 hin1 hvne)]
  refine List.mem_map.mpr ⟨e2, ?_, rfl⟩
  exact List.mem_filter.mpr ⟨hin2, by simp [hne]⟩

/-- Sorting predicate facts for the stable descending sort. -/
theorem byPriorityDesc_trans (a b c : ClassifiedError) :
    byPriorityDesc a b = true → byPriorityDesc b c = true → byPriorityDesc a c = true := by
  simp only [byPriorityDesc, decide_eq_true_eq]
  omega

/-- Totality of the sorting predicate. -/
theorem byPriorityDesc_total (a b : ClassifiedError) :
    (byPriorityDesc a b || byPriorityDesc b a) = true := by
  simp only [byPriorityDesc, Bool.or_eq_true, decide_eq_true_eq]
  omega

/-- C6: after `classifyErrors`, distinct diagnostics sharing a truthy
group key list each other's ids symmetrically in `relatedErrors`;
diagnostics whose group has exactly one member (or no key) keep an
empty relation list; the returned list is sorted by descending
priority.  Ids are assumed pairwise distinct, as the data model
guarantees. -/
theorem C6_classifyErrors_grouping (errors : List ParsedError)
    (hids : (errors.map (fun e => e.id)).Nodup) :
    (∀ d1 ∈ classifyErrors errors, ∀ d2 ∈ classifyErrors errors, d1 ≠ d2 →
      ∀ g, groupKeyOf d1 = some g → groupKeyOf d2 = some g →
        d2.id ∈ d1.relatedErrors ∧ d1.id ∈ d2.relatedErrors) ∧
    (∀ d ∈ classifyErrors errors, ∀ g, groupKeyOf d = some g →
      ((classifyErrors errors).filter (fun x => groupKeyOf x = some g)).length = 1 →
      d.relatedErrors = []) ∧
    (∀ d ∈ classifyErrors errors, groupKeyOf d = none → d.relatedErrors = []) ∧
    List.Pairwise (fun a b => b.priority ≤ a.priority) (classifyErrors errors) := by
  have hperm : (classifyErrors errors).Perm (groupRelatedErrors (errors.map classifyError)) := by
    unfold classifyErrors
    exact List.mergeSort_perm _ _
  have hgidnodup : ((errors.map classifyError).map (fun x => x.id)).Nodup := by
    rw [List.map_map]
    have hcomp : ((fun x : ClassifiedError => x.id) ∘ classifyError) =
        (fun e : ParsedError => e.id) := funext (fun e => classifyError_id e)
    rw [hcomp]
    exact hids
  have hinj := List.inj_on_of_nodup_map hgidnodup
  have hrelated : ∀ e ∈ errors.map classifyError, e.relatedErrors = [] := by
    intro e he
    obtain ⟨pe, _, rfl⟩ := List.mem_map.mp he
    exact classifyError_relatedErrors pe
  refine ⟨?_, ?_, ?_, ?_⟩
  · intro d1 h1 d2 h2 hne g hk1 hk2
    obtain ⟨e1, he1, hd1⟩ := List.mem_map.mp (hperm.mem_iff.mp h1)
    obtain ⟨e2, he2, hd2⟩ := List.mem_map.mp (hperm.mem_iff.mp h2)
    have hke1 : groupKeyOf e1 = some g := by
      rw [← relateOne_key (errors.map classifyError) e1, hd1]
      exact hk1
    have hke2 : groupKeyOf e2 = some g := by
      rw [← relateOne_key (errors.map classifyError) e2, hd2]
      exact hk2
    have hid1 : d1.id = e1.id := by rw [← hd1]; exact relateOne_id _ _
    have hid2 : d2.id = e2.id := by rw [← hd2]; exact relateOne_id _ _
    have hene : e1 ≠ e2 := by
      intro hv
      exact hne (by rw [← hd1, ← hd2, hv])
    have hidne : e2.id ≠ e1.id := by
      intro hidv
      exact hene (hinj he1 he2 hidv.symm)
    constructor
    · rw [← hd1, hid2]
      exact relateOne_mem_related _ e1 e2 g hke1 hke2 he1 he2 hidne
    · rw [← hd2, hid1]
      exact relateOne_mem_related _ e2 e1 g hke2 hke1 he2 he1 (fun hv => hidne hv.symm)
  · intro d hd g hk hlen
    obtain ⟨e, he, hde⟩ := List.mem_map.mp (hperm.mem_iff.mp hd)
    have hke : groupKeyOf e = some g := by
      rw [← relateOne_key (errors.map classifyError) e, hde]
      exact hk
    have hlenbase :
        ((errors.map classifyError).filter (fun x => groupKeyOf x = some g)).length = 1 := by
      have hstep1 := (hperm.filter (fun x => decide (groupKeyOf x = some g))).length_eq
      rw [hstep1] at hlen
      unfold groupRelatedErrors at hlen
      rw [← List.countP_eq_length_filter] at hlen
      rw [List.countP_map] at hlen
      rw [← List.countP_eq_length_filter]
      rw [← hlen]
      apply List.countP_congr
      intro x _
      simp [Function.comp, relateOne_key]
    rw [← hde]
    unfold relateOne
    rw [hke]
    simp only
    rw [if_neg (by rw [hlenbase]; omega)]
    exact hrelated e he
  · intro d hd hk
    obtain ⟨e, he, hde⟩ := List.mem_map.mp (hperm.mem_iff.mp hd)
    have hke : groupKeyOf e = none := by
      rw [← relateOne_key (errors.map classifyError) e, hde]
      exact hk
    rw [← hde]
    unfold relateOne
    rw [hke]
    exact hrelated e he
  · have hs := List.sorted_mergeSort byPriorityDesc_trans byPriorityDesc_total
      (groupRelatedErrors (errors.map classifyError))
    exact hs.imp (fun hab => by simpa [byPriorityDesc] using hab)

/-- Witness for C6 at a concrete error list with a shared group key. -/
theorem C6_classifyErrors_grouping_witness :
    ([mkParsed "A" (some "TS1") "x", mkParsed "B" (some "TS1") "y"].map (fun e => e.id)).Nodup ∧
    (∀ d1 ∈ classifyErrors [mkParsed "A" (some "TS1") "x", mkParsed "B" (some "TS1") "y"],
      ∀ d2 ∈ classifyErrors [mkParsed "A" (some "TS1") "x", mkParsed "B" (some "TS1") "y"],
      d1 ≠ d2 → ∀ g, groupKeyOf d1 = some g → groupKeyOf d2 = some g →
        d2.id ∈ d1.relatedErrors ∧ d1.id ∈ d2.relatedErrors) ∧
    (∀ d ∈ classifyErrors [mkParsed "A" (some "TS1") "x", mkParsed "B" (some "TS1") "y"],
      ∀ g, groupKeyOf d = some g →
      ((classifyErrors [mkParsed "A" (some "TS1") "x", mkParsed "B" (some "TS1") "y"]).filter
        (fun x => groupKeyOf x = some g)).length = 1 →
      d.relatedErrors = []) ∧
    (∀ d ∈ classifyErrors [mkParsed "A" (some "TS1") "x", mkParsed "B" (some "TS1") "y"],
      groupKeyOf d = none → d.relatedErrors = []) ∧
    List.Pairwise (fun a b => b.priority ≤ a.priority)
      (classifyErrors [mkParsed "A" (some "TS1") "x", mkParsed "B" (some "TS1") "y"]) :=
  ⟨by decide,
   C6_classifyErrors_grouping [mkParsed "A" (some "TS1") "x", mkParsed "B" (some "TS1") "y"]
     (by decide)⟩

/-- Helper: tags the App Router fix can produce. -/
theorem getNextJSAppRouterFix_type (e : ClassifiedError) :
    (getNextJSAppRouterFix e).type ∈ customStrategyTags := by
  unfold getNextJSAppRouterFix
  dsimp only
  split <;> simp [customStrategyTags]

/-- Helper: tag the client-component fix produces. -/
theorem getClientComponentFix_type (e : ClassifiedError) :
    (getClientComponentFix e).type ∈ customStrategyTags := by
  simp [getClientComponentFix, customStrategyTags]

/-- Helper: tags the API-route fix can produce. -/
theorem getAPIRouteFix_type (e : ClassifiedError) :
    (getAPIRouteFix e).type ∈ customStrategyTags := by
  unfold getAPIRouteFix
  dsimp only
  split <;> simp [customStrategyTags]

/-- Helper: tags the image-optimization fix can produce. -/
theorem getImageOptimizationFix_type (e : ClassifiedError) :
    (getImageOptimizationFix e).type ∈ customStrategyTags := by
  unfold getImageOptimizationFix
  dsimp only
  split
  · simp [customStrategyTags]
  · split <;> simp [customStrategyTags]

/-- Helper: tags the React-hook fix can produce. -/
theorem getReactHookFix_type (e : ClassifiedError) :
    (getReactHookFix e).type ∈ customStrategyTags := by
  unfold getReactHookFix
  dsimp only
  split
  · simp [customStrategyTags]
  · split <;> simp [customStrategyTags]

/-- Helper: every strategy the custom (framework-idiom) resolver can
return carries one of the custom tags. -/
theorem getCustomFixStrategy_tag (e : ClassifiedError) (s : FixStrategy)
    (h : getCustomFixStrategy e = some s) : s.type ∈ customStrategyTags := by
  unfold getCustomFixStrategy at h
  repeat' split at h
  all_goals first
    | exact Option.noConfusion h
    | (obtain rfl : _ = s := Option.some.inj h
       first
         | exact getNextJSAppRouterFix_type e
         | exact getClientComponentFix_type e
         | exact getAPIRouteFix_type e
         | exact getImageOptimizationFix_type e
         | exact getReactHookFix_type e
         | simp [customStrategyTags])

/-- Helper: deny-listed custom tags are all high-risk. -/
theorem getCustomFixStrategy_deny_high (e : ClassifiedError) (s : FixStrategy)
    (h : getCustomFixStrategy e = some s) (hdeny : s.type ∈ complexFixes) :
    s.type ∈ highRiskFixes := by
  have htag := getCustomFixStrategy_tag e s h
  have hall : ∀ m ∈ customStrategyTags, m ∈ complexFixes → m ∈ highRiskFixes := by decide
  exact hall s.type htag hdeny

/-- Helper: a deny-listed strategy passes `canFixInSafeMode` only via
the ESLint bypass (deny-listed tags are never on the allow-list, and
the deny check precedes the simple-type-fix check). -/
theorem canFixInSafeMode_deny_eslint (ext : ExternalTools) (e : ClassifiedError)
    (s : FixStrategy) (hcf : canFixInSafeMode ext e = true)
    (hstrat : getFixStrategy e = some s) (hdeny : s.type ∈ complexFixes) :
    e.type = .eslint ∧ ext.eslintAvailable = true := by
  have hlists : stratTypeIn (some s) safeFixes = false ∧
      stratTypeIn (some s) complexFixes = true := by
    simp only [complexFixes, List.mem_cons, List.not_mem_nil, or_false] at hdeny
    rcases hdeny with h | h | h | h | h | h <;>
      refine ⟨?_, ?_⟩ <;> simp [stratTypeIn, safeFixes, complexFixes, h]
  unfold canFixInSafeMode at hcf
  rw [hstrat] at hcf
  dsimp only at hcf
  rw [hlists.1, hlists.2] at hcf
  simp only [Bool.false_eq_true, if_false] at hcf
  by_cases hb : ((e.type = ErrorType.eslint) && ext.eslintAvailable) = true
  · simpa [decide_eq_true_eq] using hb
  · rw [if_neg ?_] at hcf
    · exact absurd hcf (by simp)
    · intro hx
      exact hb (by simpa using hx)

/-- Helper: high-risk tags assess as high risk. -/
theorem assessFixRisk_high (e : ClassifiedError) (s : FixStrategy)
    (h : s.type ∈ highRiskFixes) : assessFixRisk e s = .high := by
  unfold assessFixRisk
  rw [if_pos]
  simpa using h

/-- Helper: the safe-mode-prevention message mentions safe mode
whatever the appended reason is. -/
theorem strContains_safe_mode_prevention (x : String) :
    strContains (jsToLower ("Safe mode prevention: " ++ x)) "safe mode" = true := by
  unfold strContains jsToLower
  apply decide_eq_true
  show "safe mode".data <:+: (("Safe mode prevention: " ++ x).data.map Char.toLower)
  rw [String.data_append, List.map_append]
  have hpref : ("Safe mode prevention: ".data.map Char.toLower) =
      "safe mode".data ++ " prevention: ".data := by decide
  rw [hpref, List.append_assoc]
  exact ⟨[], " prevention: ".data ++ x.data.map Char.toLower, rfl⟩

/-- C1: in conservative (safe) mode, a diagnostic whose resolved
strategy is on the deny-list always gets a failed, unapplied result
whose message mentions safe mode, and the world — in particular the
diagnostic's file — is untouched, regardless of the diagnostic's
category or allow-list membership and of what the apply step would do. -/
theorem C1_conservative_denylist_blocked (cfg : MonitorConfig) (ext : ExternalTools)
    (inner : ClassifiedError → M FixResult) (e : ClassifiedError) (s : FixStrategy) (w : World)
    (hsafe : cfg.safeMode = true) (hstrat : getFixStrategy e = some s)
    (hdeny : s.type ∈ complexFixes) :
    ∃ r : FixResult,
      applyFix cfg ext inner e w = (.ok r, w) ∧ r.success = false ∧ r.applied = false ∧
      strContains (jsToLower (r.error.getD "")) "safe mode" = true := by
  cases hcf : canFixInSafeMode ext e with
  | false =>
    refine ⟨{ success := false, error := some "Fix blocked by safe mode - requires manual intervention",
              file := e.file, applied := false, changes := none }, ?_, rfl, rfl, rfl⟩
    simp [applyFix, hsafe, hcf, mret]
  | true =>
    obtain ⟨htype, havail⟩ := canFixInSafeMode_deny_eslint ext e s hcf hstrat hdeny
    have hcustom : getCustomFixStrategy e = some s := by
      unfold getFixStrategy at hstrat
      rw [htype] at hstrat
      exact hstrat
    have hhigh := getCustomFixStrategy_deny_high e s hcustom hdeny
    have hrisk := assessFixRisk_high e s hhigh
    refine ⟨{ success := false,
              error := some ("Safe mode prevention: " ++
                ("High-risk fix: " ++ s.description ++ ". Manual intervention recommended.")),
              file := e.file, applied := false, changes := none }, ?_, rfl, rfl,
            strContains_safe_mode_prevention _⟩
    simp [applyFix, hsafe, hcf, generateFixPreview, hstrat, hrisk, mret, mbind, mtry]

/-- Witness for C1: a build diagnostic resolving to the deny-listed
Next.js-config strategy, in safe mode, over the demo world. -/
theorem C1_conservative_denylist_blocked_witness :
    cfgSafe.safeMode = true ∧
    getFixStrategy (mkClassified "e1" .build "error in next.config broke" "proj/a.ts") =
      some { type := "fix_nextjs_config", target := none, description := "Fix Next.js configuration" } ∧
    ("fix_nextjs_config" : String) ∈ complexFixes ∧
    (∃ r : FixResult,
      applyFix cfgSafe extOn innerThrow
        (mkClassified "e1" .build "error in next.config broke" "proj/a.ts") wDemo = (.ok r, wDemo) ∧
      r.success = false ∧ r.applied = false ∧
      strContains (jsToLower (r.error.getD "")) "safe mode" = true) :=
  ⟨rfl, by decide, by decide,
   C1_conservative_denylist_blocked cfgSafe extOn innerThrow
     (mkClassified "e1" .build "error in next.config broke" "proj/a.ts")
     { type := "fix_nextjs_config", target := none, description := "Fix Next.js configuration" }
     wDemo rfl (by decide) (by decide)⟩

/-- Helper: run equation for bind on a value. -/
theorem mbind_ok_run {α β : Type} (x : M α) (f : α → M β) (w w' : World) (a : α)
    (hx : x w = (.ok a, w')) : mbind x f w = f a w' := by
  unfold mbind
  rw [hx]

/-- Helper: run equation for bind on a throw. -/
theorem mbind_thrown_run {α β : Type} (x : M α) (f : α → M β) (w w' : World) (m : String)
    (hx : x w = (.thrown m, w')) : mbind x f w = (.thrown m, w') := by
  unfold mbind
  rw [hx]

/-- Helper: run equation for try on a value. -/
theorem mtry_ok_run {α : Type} (x : M α) (h : String → M α) (w w' : World) (a : α)
    (hx : x w = (.ok a, w')) : mtry x h w = (.ok a, w') := by
  unfold mtry
  rw [hx]

/-- Helper: run equation for try on a throw. -/
theorem mtry_thrown_run {α : Type} (x : M α) (h : String → M α) (w w' : World) (m : String)
    (hx : x w = (.thrown m, w')) : mtry x h w = h m w' := by
  unfold mtry
  rw [hx]

/-- Helper: a try whose handler always produces a value produces a
value. -/
theorem mtry_ok_of_handler {α : Type} (x : M α) (h : String → M α) (w : World)
    (hh : ∀ m w', ∃ a w2, h m w' = (.ok a, w2)) :
    ∃ a w2, mtry x h w = (.ok a, w2) := by
  unfold mtry
  cases hx : x w with
  | mk o w' =>
    cases o with
    | ok a => exact ⟨a, w', rfl⟩
    | thrown m => exact hh m w'

/-- C3 counterexample: with backups enabled and the diagnostic's file
absent, `applyFix` rejects (propagates the read error) instead of
resolving to a `FixResult`, refuting the never-throws half of the
claim.  (The no-write half holds: the world is returned unchanged.) -/
theorem C3_backup_failure_throws_counterexample :
    applyFix cfgOpen extOn innerWrite (mkClassified "e1" .eslint "x" "proj/missing.ts") wDemo =
      (.thrown "ENOENT: no such file or directory, open proj/missing.ts", wDemo) := by
  rfl

/-- C3 (amended): `applyFix` resolves to a structured `FixResult` on
the safety-block, no-strategy, apply-exception and validation-failure
paths — in particular it never throws when backups are disabled — but
a backup-creation failure (backups enabled, unreadable target) is
propagated as a thrown error past `applyFix`; the attempt is still
aborted before any write, leaving the world (hence the target file)
unchanged. -/
theorem C3_applyFix_result_discipline (cfg : MonitorConfig) (ext : ExternalTools)
    (inner : ClassifiedError → M FixResult) (e : ClassifiedError) (w : World) :
    (cfg.safeMode = false → cfg.backupEnabled = true → alookup w.files e.file = none →
      applyFix cfg ext inner e w =
        (.thrown ("ENOENT: no such file or directory, open " ++ e.file), w)) ∧
    (cfg.backupEnabled = false →
      ∃ r w2, applyFix cfg ext inner e w = (.ok r, w2)) := by
  constructor
  · intro hopen hb hmiss
    have hcreate : createEnhancedBackup cfg e.file e.type.str
        ("Fix for " ++ e.type.str ++ " error: " ++ ⟨e.message.data.take 100⟩) w =
        (.thrown ("ENOENT: no such file or directory, open " ++ e.file), w) := by
      unfold createEnhancedBackup
      apply mbind_thrown_run
      unfold fsReadFile
      rw [hmiss]
    unfold applyFix
    rw [hopen]
    simp only [Bool.false_and, Bool.false_eq_true, if_false]
    rw [mbind_ok_run (mret ({ canProceed := true, reason := none, preview := none } : FixPreview))
        _ w w ({ canProceed := true, reason := none, preview := none } : FixPreview) rfl]
    rw [if_neg (by simp)]
    apply mbind_thrown_run
    rw [if_pos hb]
    exact mbind_thrown_run _ _ w w _ hcreate
  · intro hnb
    unfold applyFix
    split
    · exact ⟨_, w, rfl⟩
    · obtain ⟨p, w2, hp⟩ : ∃ p w2,
          (if cfg.safeMode = true then generateFixPreview ext e
           else mret { canProceed := true, reason := none, preview := none }) w = (.ok p, w2) := by
        split
        · unfold generateFixPreview
          exact mtry_ok_of_handler _ _ w (fun m w' => ⟨_, w', rfl⟩)
        · exact ⟨_, w, rfl⟩
      rw [mbind_ok_run _ _ _ _ _ hp]
      split
      · exact ⟨_, w2, rfl⟩
      · rw [mbind_ok_run _ _ w2 w2 (none : Option String) (by rw [if_neg (by simp [hnb])]; rfl)]
        exact mtry_ok_of_handler _ _ w2 (fun m w' => ⟨_, w', rfl⟩)

/-- Witness for C3's amended theorem at a concrete open configuration
and missing file. -/
theorem C3_applyFix_result_discipline_witness :
    (cfgOpen.safeMode = false → cfgOpen.backupEnabled = true →
      alookup wDemo.files (mkClassified "e1" .eslint "x" "proj/missing.ts").file = none →
      applyFix cfgOpen extOn innerThrow (mkClassified "e1" .eslint "x" "proj/missing.ts") wDemo =
        (.thrown ("ENOENT: no such file or directory, open " ++
          (mkClassified "e1" .eslint "x" "proj/missing.ts").file), wDemo)) ∧
    (cfgOpen.backupEnabled = false →
      ∃ r w2, applyFix cfgOpen extOn innerThrow
        (mkClassified "e1" .eslint "x" "proj/missing.ts") wDemo = (.ok r, w2)) :=
  C3_applyFix_result_discipline cfgOpen extOn innerThrow
    (mkClassified "e1" .eslint "x" "proj/missing.ts") wDemo

/-- Helper: lookup after insert-or-replace at the same key. -/
theorem alookup_aupsert_self {α : Type} (l : List (String × α)) (k : String) (v : α) :
    alookup (aupsert l k v) k = some v := by
  induction l with
  | nil => simp [aupsert, alookup]
  | cons hd tl ih =>
    unfold aupsert
    split
    · simp [alookup]
    · rename_i hne
      unfold alookup at ih ⊢
      simp only [List.find?_cons]
      have : (decide (hd.1 = k)) = false := by
        simpa using hne
      rw [this]
      exact ih

/-- Helper: lookup after insert-or-replace at a different key. -/
theorem alookup_aupsert_ne {α : Type} (l : List (String × α)) (k k' : String) (v : α)
    (h : k' ≠ k) : alookup (aupsert l k' v) k = alookup l k := by
  induction l with
  | nil => simp [aupsert, alookup, h]
  | cons hd tl ih =>
    unfold aupsert
    split
    · rename_i heq
      unfold alookup
      simp only [List.find?_cons]
      rw [show (decide (k' = k)) = false by simpa using h,
          show (decide (hd.1 = k)) = false by rw [heq]; simpa using h]
    · unfold alookup at ih ⊢
      simp only [List.find?_cons]
      cases hdk : (decide (hd.1 = k)) with
      | true => rfl
      | false => exact ih

/-- Helper: insert-or-replace of an absent key appends. -/
theorem aupsert_of_none {α : Type} (l : List (String × α)) (k : String) (v : α)
    (h : alookup l k = none) : aupsert l k v = l ++ [(k, v)] := by
  induction l with
  | nil => rfl
  | cons hd tl ih =>
    unfold alookup at h ih
    simp only [List.find?_cons] at h
    unfold aupsert
    split
    · rename_i heq
      rw [heq] at h
      simp at h
    · rename_i hne
      rw [show (decide (hd.1 = k)) = false by simpa using hne] at h
      rw [ih h]
      rfl

/-- Helper: search skips a block of failures. -/
theorem find?_append_false {α : Type} (l1 l2 : List α) (p : α → Bool)
    (h : ∀ x ∈ l1, p x = false) : (l1 ++ l2).find? p = l2.find? p := by
  rw [List.find?_append]
  rw [List.find?_eq_none.mpr (fun x hx => by simp [h x hx])]
  rfl

/-- Helper: stripping the directory prefix off a path below it. -/
theorem stripDirPrefix_append (dir n : String) :
    stripDirPrefix dir (dir ++ "/" ++ n) = some n := by
  unfold stripDirPrefix
  rw [if_pos]
  · congr 1
    apply String.ext
    show List.drop (dir ++ "/").data.length (dir ++ "/" ++ n).data = n.data
    rw [show dir ++ "/" ++ n = (dir ++ "/") ++ n from rfl, String.data_append]
    exact List.drop_left _ _
  · rw [show dir ++ "/" ++ n = (dir ++ "/") ++ n from rfl, String.data_append]
    exact List.isPrefixOf_iff_prefix.mpr (List.prefix_append _ _)

/-- Helper: directory listing ignores entries outside the directory. -/
theorem dirNames_eq_filtered (cfg : MonitorConfig) (l : List (String × String)) :
    l.filterMap (fun pc => stripDirPrefix (backupDir cfg) pc.1) =
      (l.filter (fun pc => (backupDir cfg ++ "/").data.isPrefixOf pc.1.data)).filterMap
        (fun pc => stripDirPrefix (backupDir cfg) pc.1) := by
  induction l with
  | nil => rfl
  | cons hd tl ih =>
    simp only [List.filterMap_cons, List.filter_cons]
    by_cases hp : ((backupDir cfg ++ "/").data.isPrefixOf hd.1.data) = true
    · simp only [hp, if_true, List.filterMap_cons]
      rw [ih]
    · simp only [Bool.not_eq_true] at hp
      simp only [hp, Bool.false_eq_true, if_false]
      rw [show stripDirPrefix (backupDir cfg) hd.1 = none by
        unfold stripDirPrefix
        rw [if_neg (by rw [hp]; exact Bool.false_ne_true)]]
      exact ih

/-- Helper: lookup of a key satisfying the filter predicate is decided
inside the filtered list. -/
theorem alookup_filter_key {α : Type} (pred : String → Bool) (l : List (String × α)) (k : String)
    (hk : pred k = true) :
    alookup (l.filter (fun pc => pred pc.1)) k = alookup l k := by
  induction l with
  | nil => rfl
  | cons hd tl ih =>
    simp only [List.filter_cons]
    by_cases hdk : hd.1 = k
    · rw [show pred hd.1 = true by rw [hdk]; exact hk]
      simp only [if_true]
      unfold alookup
      simp only [List.find?_cons, show (decide (hd.1 = k)) = true by simpa using hdk]
    · by_cases hp : pred hd.1 = true
      · rw [hp]
        simp only [if_true]
        unfold alookup at ih ⊢
        simp only [List.find?_cons, show (decide (hd.1 = k)) = false by simpa using hdk]
        exact ih
      · rw [show pred hd.1 = false by simpa using hp]
        simp only [Bool.false_eq_true, if_false]
        rw [ih]
        unfold alookup
        simp only [List.find?_cons, show (decide (hd.1 = k)) = false by simpa using hdk]

/-- Helper: lookup distributes over append when the key is absent on
the left. -/
theorem alookup_append {α : Type} (l1 l2 : List (String × α)) (k : String)
    (h : alookup l1 k = none) : alookup (l1 ++ l2) k = alookup l2 k := by
  unfold alookup at h ⊢
  have hf : l1.find? (fun p => p.1 = k) = none := Option.map_eq_none'.mp h
  rw [List.find?_append, hf, Option.none_or]

/-- Helper: a path below the backup directory carries its prefix. -/
theorem prefix_slash_append (dir n : String) :
    ((dir ++ "/").data.isPrefixOf (dir ++ "/" ++ n).data) = true := by
  rw [show dir ++ "/" ++ n = (dir ++ "/") ++ n from rfl, String.data_append]
  exact List.isPrefixOf_iff_prefix.mpr (List.prefix_append _ _)

/-- Helper: the metadata index path decomposed at the separator. -/
theorem backupMetadataFile_eq (cfg : MonitorConfig) :
    backupMetadataFile cfg = backupDir cfg ++ "/" ++ "metadata.json" := by
  unfold backupMetadataFile
  apply String.ext
  rw [String.data_append, String.data_append, String.data_append, List.append_assoc]
  rfl

/-- Helper: last character of an appended string with known tail. -/
theorem strLast_append (a b : String) :
    (a ++ b).data.getLast? = b.data.getLast?.or a.data.getLast? := by
  rw [String.data_append]
  exact List.getLast?_append

/-- Helper: backup blob names end in the `.backup` suffix letter. -/
theorem mkBackupName_last (cfg : MonitorConfig) (fp : String) (ts : Nat) (bid : String) :
    (mkBackupName cfg fp ts bid).data.getLast? = some 'p' := by
  unfold mkBackupName
  rw [strLast_append]
  rfl

/-- Helper: a backup blob path never collides with the metadata index
path. -/
theorem mkBackupName_ne_metadata (cfg : MonitorConfig) (fp : String) (ts : Nat) (bid : String) :
    (backupDir cfg ++ "/" ++ mkBackupName cfg fp ts bid) ≠ backupMetadataFile cfg := by
  intro h
  have hd := congrArg (fun s : String => s.data.getLast?) h
  dsimp only at hd
  rw [backupMetadataFile_eq] at hd
  rw [strLast_append (backupDir cfg ++ "/") (mkBackupName cfg fp ts bid),
      mkBackupName_last,
      strLast_append (backupDir cfg ++ "/") "metadata.json",
      show ("metadata.json" : String).data.getLast? = some 'n' from rfl,
      show ((some 'p').or ((backupDir cfg ++ "/").data.getLast?)) = some 'p' from rfl,
      show ((some 'n').or ((backupDir cfg ++ "/").data.getLast?)) = some 'n' from rfl] at hd
  exact absurd hd (by decide)

/-- Helper: the blob filename carries the backup id as a substring
(`file.includes(backupId)` finds it). -/
theorem strContains_mkBackupName (cfg : MonitorConfig) (fp : String) (ts : Nat) (bid : String) :
    strContains (mkBackupName cfg fp ts bid) bid = true := by
  unfold strContains mkBackupName
  rw [decide_eq_true_eq]
  refine ⟨((⟨(relativeTo cfg.projectPath fp).data.map
      (fun c => if c = '/' ∨ c = '\\' then '_' else c)⟩ : String) ++ "." ++ toString ts ++ "." : String).data,
    (".backup" : String).data, ?_⟩
  simp [String.data_append, List.append_assoc]

/-- Helper: no file of a world with an empty backup directory lies
below that directory. -/
theorem alookup_backup_prefix_none (cfg : MonitorConfig) (w : World)
    (hempty : w.files.filter (fun pc => (backupDir cfg ++ "/").data.isPrefixOf pc.1.data) = [])
    (p : String) (hp : ((backupDir cfg ++ "/").data.isPrefixOf p.data) = true) :
    alookup w.files p = none := by
  have h1 := alookup_filter_key (fun q => (backupDir cfg ++ "/").data.isPrefixOf q.data) w.files p hp
  rw [← h1]
  have h2 : (w.files.filter
      (fun pc => (fun q => (backupDir cfg ++ "/").data.isPrefixOf q.data) pc.1)) = [] := hempty
  rw [h2]
  rfl

/-- Helper: bind of world-preserving computations preserves the
world. -/
theorem mro_mbind {α β : Type} (x : M α) (f : α → M β) (w : World)
    (hx : (x w).2 = w) (hf : ∀ a w2, (f a w2).2 = w2) : (mbind x f w).2 = w := by
  unfold mbind
  cases hxw : x w with
  | mk o w2 =>
    rw [hxw] at hx
    cases o with
    | ok a =>
      rw [hf a w2]
      exact hx
    | thrown m => exact hx

/-- Helper: try over world-preserving computations preserves the
world. -/
theorem mro_mtry {α : Type} (x : M α) (h : String → M α) (w : World)
    (hx : (x w).2 = w) (hh : ∀ m w2, (h m w2).2 = w2) : (mtry x h w).2 = w := by
  unfold mtry
  cases hxw : x w with
  | mk o w2 =>
    rw [hxw] at hx
    cases o with
    | ok a => exact hx
    | thrown m =>
      rw [hh m w2]
      exact hx

/-- Helper: reading a file never changes the world. -/
theorem mro_fsReadFile (p : String) (w : World) : (fsReadFile p w).2 = w := by
  unfold fsReadFile
  cases alookup w.files p <;> rfl

/-- Helper: measuring a file never changes the world. -/
theorem mro_fsStatSize (p : String) (w : World) : (fsStatSize p w).2 = w := by
  unfold fsStatSize
  exact mro_mbind _ _ _ (mro_fsReadFile p w) (fun a w2 => rfl)

/-- Helper: the syntax probe never changes the world. -/
theorem mro_validateSyntax (ext : ExternalTools) (fp : String) (w : World) :
    (validateSyntax ext fp w).2 = w := by
  unfold validateSyntax
  apply mro_mtry
  · apply mro_mbind
    · exact mro_fsReadFile fp w
    · intro a w2
      split
      · cases ext.jsSyntaxProbe a <;> rfl
      · rfl
  · intro m w2
    rfl

/-- Helper: the TypeScript token scan never changes the world. -/
theorem mro_validateTypeScript (fp : String) (w : World) :
    (validateTypeScript fp w).2 = w := by
  unfold validateTypeScript
  apply mro_mtry
  · apply mro_mbind
    · exact mro_fsReadFile fp w
    · intro a w2
      cases List.find? (fun pr => regexTest pr.1 a) tsCommonIssues <;> rfl
  · intro m w2
    rfl

/-- Helper: the ESLint pass never changes the world. -/
theorem mro_validateESLint (ext : ExternalTools) (fp : String) (w : World) :
    (validateESLint ext fp w).2 = w := by
  unfold validateESLint
  apply mro_mtry
  · split
    · rfl
    · apply mro_mbind
      · exact mro_fsReadFile fp _
      · intro a w2
        cases ext.eslintVerdict a <;> rfl
  · intro m w2
    rfl

/-- Helper: post-fix validation never changes the world (all of its
steps only read). -/
theorem mro_validateFix (cfg : MonitorConfig) (ext : ExternalTools) (fp : String) (w : World) :
    (validateFix cfg ext fp w).2 = w := by
  unfold validateFix
  apply mro_mtry
  · apply mro_mbind
    · exact mro_validateSyntax ext fp w
    · intro sv w1
      split
      · rfl
      · apply mro_mbind
        · split
          · exact mro_validateTypeScript fp w1
          · rfl
        · intro tv w2
          split
          · rfl
          · apply mro_mbind
            · split
              · exact mro_validateESLint ext fp w2
              · rfl
            · intro lv w3
              split
              · rfl
              · apply mro_mbind
                · exact mro_fsStatSize fp w3
                · intro sz w4
                  split <;> (dsimp only; split <;> rfl)
  · intro m w1
    rfl

/-- Helper: a try whose handler always yields a value never ends
thrown. -/
theorem mtry_never_thrown {α : Type} (x : M α) (h : String → M α) (w w2 : World) (m : String)
    (hh : ∀ m2 w3, ∃ a, h m2 w3 = (.ok a, w3)) :
    mtry x h w ≠ (.thrown m, w2) := by
  unfold mtry
  cases hx : x w with
  | mk o w3 =>
    cases o with
    | ok a => simp
    | thrown m2 =>
      obtain ⟨a, ha⟩ := hh m2 w3
      show h m2 w3 ≠ (.thrown m, w2)
      rw [ha]
      simp

/-- Helper: `validateFix` always resolves to a verdict and leaves the
world unchanged. -/
theorem validateFix_run (cfg : MonitorConfig) (ext : ExternalTools) (fp : String) (w : World) :
    ∃ v, validateFix cfg ext fp w = (.ok v, w) := by
  have hro := mro_validateFix cfg ext fp w
  cases hx : validateFix cfg ext fp w with
  | mk o w2 =>
    rw [hx] at hro
    cases o with
    | ok v => exact ⟨v, by rw [← hro]⟩
    | thrown m =>
      exfalso
      unfold validateFix at hx
      exact absurd hx (mtry_never_thrown _ _ w w2 m (fun m2 w3 => ⟨_, rfl⟩))

/-- Helper: run equation of a successful `createEnhancedBackup` on an
existing file: it returns the fresh id and effects exactly the
`backupWorld` update. -/
theorem createEnhancedBackup_run (cfg : MonitorConfig) (fp ft d c0 : String) (w : World)
    (h : alookup w.files fp = some c0) :
    createEnhancedBackup cfg fp ft d w =
      (.ok ("backup-" ++ toString w.nextId), backupWorld cfg fp ft d c0 w) := by
  unfold createEnhancedBackup backupWorld mkBackupMeta fsStatSize fsCopyFile
  simp only [mbind, mret, fsReadFile, fsWriteFile, freshId, mnow, metaInsert,
    saveBackupMetadata, h]

/-- Helper: run equation of `validateBackup` when metadata, blob name
and blob bytes are all present: the verdict is the checksum
comparison, the world untouched. -/
theorem validateBackup_run (cfg : MonitorConfig) (bid : String) (w : World)
    (meta : BackupMetadata) (name c : String)
    (hm : alookup w.metaStore bid = some meta)
    (hn : (dirNames cfg w).find? (fun n => strContains n bid) = some name)
    (hc : alookup w.files (backupDir cfg ++ "/" ++ name) = some c) :
    validateBackup cfg bid w = (.ok (decide (digest c = meta.checksum)), w) := by
  unfold validateBackup
  apply mtry_ok_run
  rw [mbind_ok_run (metaLookup bid) _ w w (some meta) (by unfold metaLookup; rw [hm])]
  show mbind (fsReaddir (backupDir cfg)) _ w = _
  rw [mbind_ok_run (fsReaddir (backupDir cfg)) _ w w (dirNames cfg w)
    (by unfold fsReaddir dirNames; rfl)]
  show (match (dirNames cfg w).find? (fun n => strContains n bid) with
        | none => mret false
        | some name =>
          mbind (fsReadFile (backupDir cfg ++ "/" ++ name)) (fun content =>
            mret (decide (digest content = meta.checksum)))) w = _
  rw [hn]
  show mbind (fsReadFile (backupDir cfg ++ "/" ++ name)) _ w = _
  rw [mbind_ok_run (fsReadFile (backupDir cfg ++ "/" ++ name)) _ w w c
    (by unfold fsReadFile; rw [hc])]
  rfl

/-- Helper: restoring an id absent from the metadata map throws. -/
theorem restore_missing_meta (cfg : MonitorConfig) (bid : String) (w : World)
    (hm : alookup w.metaStore bid = none) :
    restoreEnhancedBackup cfg bid w =
      (.thrown ("Backup " ++ bid ++ " not found in metadata"), w) := by
  unfold restoreEnhancedBackup
  rw [mbind_ok_run (metaLookup bid) _ w w none (by unfold metaLookup; rw [hm])]
  rfl

/-- Helper: restoring when no blob name carries the id throws. -/
theorem restore_missing_blob (cfg : MonitorConfig) (bid : String) (w : World)
    (meta : BackupMetadata)
    (hm : alookup w.metaStore bid = some meta)
    (hn : (dirNames cfg w).find? (fun n => strContains n bid) = none) :
    restoreEnhancedBackup cfg bid w =
      (.thrown ("Backup file for " ++ bid ++ " not found"), w) := by
  unfold restoreEnhancedBackup
  rw [mbind_ok_run (metaLookup bid) _ w w (some meta) (by unfold metaLookup; rw [hm])]
  show mbind (fsReaddir (backupDir cfg)) _ w = _
  rw [mbind_ok_run (fsReaddir (backupDir cfg)) _ w w (dirNames cfg w)
    (by unfold fsReaddir dirNames; rfl)]
  show (match (dirNames cfg w).find? (fun n => strContains n bid) with
        | none => mthrow ("Backup file for " ++ bid ++ " not found")
        | some name =>
          mbind (validateBackup cfg bid) (fun ok =>
            if ok then fsCopyFile (backupDir cfg ++ "/" ++ name) meta.filePath
            else mthrow ("Backup " ++ bid ++ " failed integrity check"))) w = _
  rw [hn]
  rfl

/-- Helper: restoring a backup whose stored bytes no longer hash to the
recorded checksum throws the integrity error without touching the
world. -/
theorem restore_corrupt (cfg : MonitorConfig) (bid : String) (w : World)
    (meta : BackupMetadata) (name c : String)
    (hm : alookup w.metaStore bid = some meta)
    (hn : (dirNames cfg w).find? (fun n => strContains n bid) = some name)
    (hc : alookup w.files (backupDir cfg ++ "/" ++ name) = some c)
    (hbad : digest c ≠ meta.checksum) :
    restoreEnhancedBackup cfg bid w =
      (.thrown ("Backup " ++ bid ++ " failed integrity check"), w) := by
  unfold restoreEnhancedBackup
  rw [mbind_ok_run (metaLookup bid) _ w w (some meta) (by unfold metaLookup; rw [hm])]
  show mbind (fsReaddir (backupDir cfg)) _ w = _
  rw [mbind_ok_run (fsReaddir (backupDir cfg)) _ w w (dirNames cfg w)
    (by unfold fsReaddir dirNames; rfl)]
  show (match (dirNames cfg w).find? (fun n => strContains n bid) with
        | none => mthrow ("Backup file for " ++ bid ++ " not found")
        | some name =>
          mbind (validateBackup cfg bid) (fun ok =>
            if ok then fsCopyFile (backupDir cfg ++ "/" ++ name) meta.filePath
            else mthrow ("Backup " ++ bid ++ " failed integrity check"))) w = _
  rw [hn]
  show mbind (validateBackup cfg bid) _ w = _
  rw [mbind_ok_run (validateBackup cfg bid) _ w w (decide (digest c = meta.checksum))
    (validateBackup_run cfg bid w meta name c hm hn hc)]
  rw [show (decide (digest c = meta.checksum)) = false from decide_eq_false hbad]
  rfl

/-- Helper: restoring an intact backup re-verifies the checksum and
copies the stored bytes back over the original path. -/
theorem restore_ok (cfg : MonitorConfig) (bid : String) (w : World)
    (meta : BackupMetadata) (name c : String)
    (hm : alookup w.metaStore bid = some meta)
    (hn : (dirNames cfg w).find? (fun n => strContains n bid) = some name)
    (hc : alookup w.files (backupDir cfg ++ "/" ++ name) = some c)
    (hgood : digest c = meta.checksum) :
    restoreEnhancedBackup cfg bid w =
      (.ok (), { w with files := aupsert w.files meta.filePath c }) := by
  unfold restoreEnhancedBackup
  rw [mbind_ok_run (metaLookup bid) _ w w (some meta) (by unfold metaLookup; rw [hm])]
  show mbind (fsReaddir (backupDir cfg)) _ w = _
  rw [mbind_ok_run (fsReaddir (backupDir cfg)) _ w w (dirNames cfg w)
    (by unfold fsReaddir dirNames; rfl)]
  show (match (dirNames cfg w).find? (fun n => strContains n bid) with
        | none => mthrow ("Backup file for " ++ bid ++ " not found")
        | some name =>
          mbind (validateBackup cfg bid) (fun ok =>
            if ok then fsCopyFile (backupDir cfg ++ "/" ++ name) meta.filePath
            else mthrow ("Backup " ++ bid ++ " failed integrity check"))) w = _
  rw [hn]
  show mbind (validateBackup cfg bid) _ w = _
  rw [mbind_ok_run (validateBackup cfg bid) _ w w (decide (digest c = meta.checksum))
    (validateBackup_run cfg bid w meta name c hm hn hc)]
  rw [show (decide (digest c = meta.checksum)) = true from decide_eq_true hgood]
  show fsCopyFile (backupDir cfg ++ "/" ++ name) meta.filePath w = _
  unfold fsCopyFile
  rw [mbind_ok_run (fsReadFile (backupDir cfg ++ "/" ++ name)) _ w w c
    (by unfold fsReadFile; rw [hc])]
  rfl

/-- Helper: the metadata map after `createEnhancedBackup` holds the
fresh id's record. -/
theorem backupWorld_meta (cfg : MonitorConfig) (fp ft d c0 : String) (w : World) :
    alookup (backupWorld cfg fp ft d c0 w).metaStore ("backup-" ++ toString w.nextId) =
      some (mkBackupMeta fp ft d c0 ("backup-" ++ toString w.nextId) w.now) := by
  show alookup (aupsert w.metaStore ("backup-" ++ toString w.nextId)
    (mkBackupMeta fp ft d c0 ("backup-" ++ toString w.nextId) w.now)) _ = _
  exact alookup_aupsert_self _ _ _

/-- Helper: file table after `createEnhancedBackup` into an empty
backup directory: the blob and the rewritten index are appended. -/
theorem backupWorld_files (cfg : MonitorConfig) (fp ft d c0 : String) (w : World)
    (hempty : w.files.filter (fun pc => (backupDir cfg ++ "/").data.isPrefixOf pc.1.data) = []) :
    (backupWorld cfg fp ft d c0 w).files =
      w.files ++
        [(backupDir cfg ++ "/" ++ mkBackupName cfg fp w.now ("backup-" ++ toString w.nextId), c0),
         (backupMetadataFile cfg,
          encodeMeta (aupsert w.metaStore ("backup-" ++ toString w.nextId)
            (mkBackupMeta fp ft d c0 ("backup-" ++ toString w.nextId) w.now)))] := by
  show aupsert (aupsert w.files _ c0) (backupMetadataFile cfg) _ = _
  rw [aupsert_of_none w.files _ c0
    (alookup_backup_prefix_none cfg w hempty _ (prefix_slash_append _ _))]
  rw [aupsert_of_none _ _ _ ?hmf]
  case hmf =>
    rw [alookup_append w.files _ _
      (alookup_backup_prefix_none cfg w hempty _
        (by rw [backupMetadataFile_eq]; exact prefix_slash_append _ _))]
    unfold alookup
    rw [List.find?_cons_of_neg _ (by
      simp only [decide_eq_true_eq]
      exact fun hq => (mkBackupName_ne_metadata cfg fp w.now ("backup-" ++ toString w.nextId)) hq)]
    rfl
  rw [List.append_assoc]
  rfl

/-- Helper: listing the backup directory right after
`createEnhancedBackup` into an empty one yields the blob name and the
index name. -/
theorem backupWorld_dirNames (cfg : MonitorConfig) (fp ft d c0 : String) (w : World)
    (hempty : w.files.filter (fun pc => (backupDir cfg ++ "/").data.isPrefixOf pc.1.data) = []) :
    dirNames cfg (backupWorld cfg fp ft d c0 w) =
      [mkBackupName cfg fp w.now ("backup-" ++ toString w.nextId), "metadata.json"] := by
  unfold dirNames
  rw [backupWorld_files cfg fp ft d c0 w hempty]
  rw [List.filterMap_append]
  rw [show w.files.filterMap (fun pc => stripDirPrefix (backupDir cfg) pc.1) = [] by
    rw [dirNames_eq_filtered cfg w.files, hempty]
    rfl]
  rw [List.nil_append]
  simp only [List.filterMap_cons, List.filterMap_nil, stripDirPrefix_append]
  rw [show backupMetadataFile cfg = backupDir cfg ++ "/" ++ "metadata.json" from
    backupMetadataFile_eq cfg]
  simp only [stripDirPrefix_append]

/-- Helper: the stored blob bytes are the original content. -/
theorem backupWorld_blob (cfg : MonitorConfig) (fp ft d c0 : String) (w : World)
    (hempty : w.files.filter (fun pc => (backupDir cfg ++ "/").data.isPrefixOf pc.1.data) = []) :
    alookup (backupWorld cfg fp ft d c0 w).files
      (backupDir cfg ++ "/" ++ mkBackupName cfg fp w.now ("backup-" ++ toString w.nextId)) =
      some c0 := by
  rw [backupWorld_files cfg fp ft d c0 w hempty]
  rw [alookup_append w.files _ _
    (alookup_backup_prefix_none cfg w hempty _ (prefix_slash_append _ _))]
  unfold alookup
  rw [List.find?_cons_of_pos _ (by simp)]
  rfl

set_option maxHeartbeats 1600000 in
theorem applyFix_attempt_run (cfg : MonitorConfig) (ext : ExternalTools)
    (inner : ClassifiedError → M FixResult) (e : ClassifiedError) (w : World) (c0 : String)
    (hopen : cfg.safeMode = false) (hb : cfg.backupEnabled = true)
    (hc0 : alookup w.files e.file = some c0) :
    applyFix cfg ext inner e w =
      mtry
        (mbind (inner e) (fun result =>
          if result.success && cfg.validateFixes then
            mbind (validateFix cfg ext e.file) (fun v =>
              if !v.isValid then
                mbind (restoreEnhancedBackup cfg ("backup-" ++ toString w.nextId)) (fun _ =>
                  mret { success := false,
                         error := some ("Fix validation failed: " ++ v.error.getD "undefined"),
                         file := e.file, applied := false, changes := none })
              else mret result)
          else mret result))
        (fun m =>
          mbind (restoreEnhancedBackup cfg ("backup-" ++ toString w.nextId)) (fun _ =>
            mret { success := false, error := some m,
                   file := e.file, applied := false, changes := none }))
        (backupWorld cfg e.file e.type.str
          ("Fix for " ++ e.type.str ++ " error: " ++ ⟨e.message.data.take 100⟩) c0 w) := by
  unfold applyFix
  rw [hopen]
  simp only [Bool.false_and, Bool.false_eq_true, if_false]
  rw [mbind_ok_run (mret ({ canProceed := true, reason := none, preview := none } : FixPreview))
    _ w w ({ canProceed := true, reason := none, preview := none } : FixPreview) rfl]
  simp only [Bool.not_true, Bool.false_eq_true, if_false]
  simp only [hb, eq_self_iff_true, if_true]
  have hbk := mbind_ok_run _ (fun i => mret (some i)) w _ _
    (createEnhancedBackup_run cfg e.file e.type.str
      ("Fix for " ++ e.type.str ++ " error: " ++ ⟨e.message.data.take 100⟩) c0 w hc0)
  refine (mbind_ok_run _ _ w _ _ (hbk.trans rfl)).trans ?_
  rfl


set_option maxHeartbeats 1600000 in
/-- C2: for every fix attempt (safe mode off, backups on, target file
present, apply step confined to the target file), `applyFix` returns
`success = true` only if the apply step succeeded and (validation is
disabled or validation passed); on an apply exception or a validation
failure the backup taken for that attempt is restored, putting the
original bytes back at the target path; and the restore operation
itself re-verifies the stored checksum before copying bytes back,
throwing when the backup is missing from the metadata, its blob is
missing, or its bytes are corrupt. -/
theorem C2_applyFix_validation_rollback_restore
    (cfg : MonitorConfig) (ext : ExternalTools) (inner : ClassifiedError → M FixResult)
    (e : ClassifiedError) (w : World) (c0 : String)
    (hopen : cfg.safeMode = false) (hb : cfg.backupEnabled = true)
    (hc0 : alookup w.files e.file = some c0)
    (hempty : w.files.filter (fun pc => (backupDir cfg ++ "/").data.isPrefixOf pc.1.data) = [])
    (hpres : ∀ w2 : World, backupView cfg ((inner e) w2).2 = backupView cfg w2) :
    (∀ r wf, applyFix cfg ext inner e w = (.ok r, wf) → r.success = true →
      ∃ r0 wx, inner e (backupWorld cfg e.file e.type.str ("Fix for " ++ e.type.str ++ " error: " ++ ⟨e.message.data.take 100⟩) c0 w) = (.ok r0, wx) ∧
        r0.success = true ∧ r = r0 ∧ wf = wx ∧
        (cfg.validateFixes = true →
          ∃ v, validateFix cfg ext e.file wx = (.ok v, wx) ∧ v.isValid = true)) ∧
    (∀ m wx, inner e (backupWorld cfg e.file e.type.str ("Fix for " ++ e.type.str ++ " error: " ++ ⟨e.message.data.take 100⟩) c0 w) = (.thrown m, wx) →
      applyFix cfg ext inner e w =
        (.ok { success := false, error := some m, file := e.file,
               applied := false, changes := none },
         { wx with files := aupsert wx.files e.file c0 }) ∧
      alookup (aupsert wx.files e.file c0) e.file = some c0) ∧
    (cfg.validateFixes = true →
      ∀ r0 wx v, inner e (backupWorld cfg e.file e.type.str ("Fix for " ++ e.type.str ++ " error: " ++ ⟨e.message.data.take 100⟩) c0 w) = (.ok r0, wx) →
        r0.success = true →
        validateFix cfg ext e.file wx = (.ok v, wx) → v.isValid = false →
        applyFix cfg ext inner e w =
          (.ok { success := false,
                 error := some ("Fix validation failed: " ++ v.error.getD "undefined"),
                 file := e.file, applied := false, changes := none },
           { wx with files := aupsert wx.files e.file c0 })) ∧
    (∀ bid2 w2, alookup w2.metaStore bid2 = none →
      restoreEnhancedBackup cfg bid2 w2 =
        (.thrown ("Backup " ++ bid2 ++ " not found in metadata"), w2)) ∧
    (∀ bid2 w2 meta2, alookup w2.metaStore bid2 = some meta2 →
      (dirNames cfg w2).find? (fun n => strContains n bid2) = none →
      restoreEnhancedBackup cfg bid2 w2 =
        (.thrown ("Backup file for " ++ bid2 ++ " not found"), w2)) ∧
    (∀ bid2 w2 meta2 name2 c2, alookup w2.metaStore bid2 = some meta2 →
      (dirNames cfg w2).find? (fun n => strContains n bid2) = some name2 →
      alookup w2.files (backupDir cfg ++ "/" ++ name2) = some c2 →
      (digest c2 ≠ meta2.checksum →
        restoreEnhancedBackup cfg bid2 w2 =
          (.thrown ("Backup " ++ bid2 ++ " failed integrity check"), w2)) ∧
      (digest c2 = meta2.checksum →
        restoreEnhancedBackup cfg bid2 w2 =
          (.ok (), { w2 with files := aupsert w2.files meta2.filePath c2 }))) := by
  have h0 := applyFix_attempt_run cfg ext inner e w c0 hopen hb hc0
  have hres : ∀ wx : World,
      backupView cfg wx = backupView cfg (backupWorld cfg e.file e.type.str ("Fix for " ++ e.type.str ++ " error: " ++ ⟨e.message.data.take 100⟩) c0 w) →
      restoreEnhancedBackup cfg ("backup-" ++ toString w.nextId) wx =
        (.ok (), { wx with files := aupsert wx.files e.file c0 }) := by
    intro wx hview
    have hms : wx.metaStore = (backupWorld cfg e.file e.type.str ("Fix for " ++ e.type.str ++ " error: " ++ ⟨e.message.data.take 100⟩) c0 w).metaStore :=
      congrArg Prod.snd hview
    have hfl : wx.files.filter (fun pc => (backupDir cfg ++ "/").data.isPrefixOf pc.1.data) =
        (backupWorld cfg e.file e.type.str ("Fix for " ++ e.type.str ++ " error: " ++ ⟨e.message.data.take 100⟩) c0 w).files.filter
          (fun pc => (backupDir cfg ++ "/").data.isPrefixOf pc.1.data) :=
      congrArg Prod.fst hview
    have hdn : dirNames cfg wx = dirNames cfg (backupWorld cfg e.file e.type.str ("Fix for " ++ e.type.str ++ " error: " ++ ⟨e.message.data.take 100⟩) c0 w) := by
      unfold dirNames
      rw [dirNames_eq_filtered cfg wx.files, hfl,
        ← dirNames_eq_filtered cfg (backupWorld cfg e.file e.type.str ("Fix for " ++ e.type.str ++ " error: " ++ ⟨e.message.data.take 100⟩) c0 w).files]
    have hT1 : alookup wx.metaStore ("backup-" ++ toString w.nextId) =
        some (mkBackupMeta e.file e.type.str ("Fix for " ++ e.type.str ++ " error: " ++ ⟨e.message.data.take 100⟩) c0 ("backup-" ++ toString w.nextId) w.now) := by
      rw [hms]
      exact backupWorld_meta cfg e.file e.type.str ("Fix for " ++ e.type.str ++ " error: " ++ ⟨e.message.data.take 100⟩) c0 w
    have hT2 : (dirNames cfg wx).find? (fun n => strContains n ("backup-" ++ toString w.nextId)) =
        some (mkBackupName cfg e.file w.now ("backup-" ++ toString w.nextId)) := by
      rw [hdn, backupWorld_dirNames cfg e.file e.type.str ("Fix for " ++ e.type.str ++ " error: " ++ ⟨e.message.data.take 100⟩) c0 w hempty]
      exact List.find?_cons_of_pos _ (strContains_mkBackupName cfg e.file w.now _)
    have hT3 : alookup wx.files (backupDir cfg ++ "/" ++
        mkBackupName cfg e.file w.now ("backup-" ++ toString w.nextId)) = some c0 := by
      have h1 := alookup_filter_key (fun q => (backupDir cfg ++ "/").data.isPrefixOf q.data)
        wx.files (backupDir cfg ++ "/" ++
          mkBackupName cfg e.file w.now ("backup-" ++ toString w.nextId))
        (prefix_slash_append (backupDir cfg) _)
      have h2 := alookup_filter_key (fun q => (backupDir cfg ++ "/").data.isPrefixOf q.data)
        (backupWorld cfg e.file e.type.str ("Fix for " ++ e.type.str ++ " error: " ++ ⟨e.message.data.take 100⟩) c0 w).files (backupDir cfg ++ "/" ++
          mkBackupName cfg e.file w.now ("backup-" ++ toString w.nextId))
        (prefix_slash_append (backupDir cfg) _)
      have hfl2 : (wx.files.filter (fun pc =>
          (fun q => (backupDir cfg ++ "/").data.isPrefixOf q.data) pc.1)) =
          ((backupWorld cfg e.file e.type.str ("Fix for " ++ e.type.str ++ " error: " ++ ⟨e.message.data.take 100⟩) c0 w).files.filter (fun pc =>
          (fun q => (backupDir cfg ++ "/").data.isPrefixOf q.data) pc.1)) := hfl
      rw [← h1, hfl2, h2]
      exact backupWorld_blob cfg e.file e.type.str ("Fix for " ++ e.type.str ++ " error: " ++ ⟨e.message.data.take 100⟩) c0 w hempty
    exact (restore_ok cfg ("backup-" ++ toString w.nextId) wx
      (mkBackupMeta e.file e.type.str ("Fix for " ++ e.type.str ++ " error: " ++ ⟨e.message.data.take 100⟩) c0 ("backup-" ++ toString w.nextId) w.now)
      (mkBackupName cfg e.file w.now ("backup-" ++ toString w.nextId)) c0
      hT1 hT2 hT3 rfl).trans rfl
  refine ⟨?p1, ?p2, ?p3, ?p4, ?p5, ?p6⟩
  case p4 => exact fun bid2 w2 hm => restore_missing_meta cfg bid2 w2 hm
  case p5 => exact fun bid2 w2 meta2 hm hn => restore_missing_blob cfg bid2 w2 meta2 hm hn
  case p6 =>
    intro bid2 w2 meta2 name2 c2 hm hn hcb
    exact ⟨fun hbad => restore_corrupt cfg bid2 w2 meta2 name2 c2 hm hn hcb hbad,
           fun hgood => restore_ok cfg bid2 w2 meta2 name2 c2 hm hn hcb hgood⟩
  case p2 =>
    intro m wx hthrow
    have hview : backupView cfg wx =
        backupView cfg (backupWorld cfg e.file e.type.str ("Fix for " ++ e.type.str ++ " error: " ++ ⟨e.message.data.take 100⟩) c0 w) := by
      have hp := hpres (backupWorld cfg e.file e.type.str ("Fix for " ++ e.type.str ++ " error: " ++ ⟨e.message.data.take 100⟩) c0 w)
      rw [hthrow] at hp
      exact hp
    refine ⟨h0.trans ?_, alookup_aupsert_self _ _ _⟩
    refine (mtry_thrown_run _ _ _ wx m (mbind_thrown_run _ _ _ wx m hthrow)).trans ?_
    refine (mbind_ok_run _ _ _ _ _ (hres wx hview)).trans ?_
    rfl
  case p3 =>
    intro hvf r0 wx v hok hs hvrun hvi
    have hview : backupView cfg wx =
        backupView cfg (backupWorld cfg e.file e.type.str ("Fix for " ++ e.type.str ++ " error: " ++ ⟨e.message.data.take 100⟩) c0 w) := by
      have hp := hpres (backupWorld cfg e.file e.type.str ("Fix for " ++ e.type.str ++ " error: " ++ ⟨e.message.data.take 100⟩) c0 w)
      rw [hok] at hp
      exact hp
    refine h0.trans ?_
    apply mtry_ok_run
    refine (mbind_ok_run _ _ _ _ _ hok).trans ?_
    dsimp only
    simp only [hs, hvf, Bool.and_self, eq_self_iff_true, if_true]
    refine (mbind_ok_run _ _ _ _ _ hvrun).trans ?_
    dsimp only
    simp only [hvi, Bool.not_false, eq_self_iff_true, if_true]
    refine (mbind_ok_run _ _ _ _ _ (hres wx hview)).trans ?_
    rfl
  case p1 =>
    intro r wf happ hrs
    cases hinner : inner e (backupWorld cfg e.file e.type.str ("Fix for " ++ e.type.str ++ " error: " ++ ⟨e.message.data.take 100⟩) c0 w) with
    | mk o wx =>
      cases o with
      | thrown m =>
        have hview : backupView cfg wx =
            backupView cfg (backupWorld cfg e.file e.type.str ("Fix for " ++ e.type.str ++ " error: " ++ ⟨e.message.data.take 100⟩) c0 w) := by
          have hp := hpres (backupWorld cfg e.file e.type.str ("Fix for " ++ e.type.str ++ " error: " ++ ⟨e.message.data.take 100⟩) c0 w)
          rw [hinner] at hp
          exact hp
        have happly : applyFix cfg ext inner e w =
            (.ok { success := false, error := some m, file := e.file,
                   applied := false, changes := none },
             { wx with files := aupsert wx.files e.file c0 }) := by
          refine h0.trans ?_
          refine (mtry_thrown_run _ _ _ wx m (mbind_thrown_run _ _ _ wx m hinner)).trans ?_
          refine (mbind_ok_run _ _ _ _ _ (hres wx hview)).trans ?_
          rfl
        have hq := happly.symm.trans happ
        injection hq with hq1 hq2
        injection hq1 with hq3
        rw [← hq3] at hrs
        simp at hrs
      | ok r0 =>
        by_cases hs : r0.success = true
        · by_cases hv : cfg.validateFixes = true
          · obtain ⟨v, hvrun⟩ := validateFix_run cfg ext e.file wx
            by_cases hvi : v.isValid = true
            · have happly : applyFix cfg ext inner e w = (.ok r0, wx) := by
                refine h0.trans ?_
                apply mtry_ok_run
                refine (mbind_ok_run _ _ _ _ _ hinner).trans ?_
                dsimp only
                simp only [hs, hv, Bool.and_self, eq_self_iff_true, if_true]
                refine (mbind_ok_run _ _ _ _ _ hvrun).trans ?_
                dsimp only
                simp only [hvi, Bool.not_true, Bool.false_eq_true, if_false]
                rfl
              have hq := happly.symm.trans happ
              injection hq with hq1 hq2
              injection hq1 with hq3
              exact ⟨r0, wx, rfl, hs, hq3.symm, hq2.symm, fun _ => ⟨v, hvrun, hvi⟩⟩
            · rw [Bool.not_eq_true] at hvi
              have hview : backupView cfg wx =
                  backupView cfg (backupWorld cfg e.file e.type.str ("Fix for " ++ e.type.str ++ " error: " ++ ⟨e.message.data.take 100⟩) c0 w) := by
                have hp := hpres (backupWorld cfg e.file e.type.str ("Fix for " ++ e.type.str ++ " error: " ++ ⟨e.message.data.take 100⟩) c0 w)
                rw [hinner] at hp
                exact hp
              have happly : applyFix cfg ext inner e w =
                  (.ok { success := false,
                         error := some ("Fix validation failed: " ++ v.error.getD "undefined"),
                         file := e.file, applied := false, changes := none },
                   { wx with files := aupsert wx.files e.file c0 }) := by
                refine h0.trans ?_
                apply mtry_ok_run
                refine (mbind_ok_run _ _ _ _ _ hinner).trans ?_
                dsimp only
                simp only [hs, hv, Bool.and_self, eq_self_iff_true, if_true]
                refine (mbind_ok_run _ _ _ _ _ hvrun).trans ?_
                dsimp only
                simp only [hvi, Bool.not_false, eq_self_iff_true, if_true]
                refine (mbind_ok_run _ _ _ _ _ (hres wx hview)).trans ?_
                rfl
              have hq := happly.symm.trans happ
              injection hq with hq1 hq2
              injection hq1 with hq3
              rw [← hq3] at hrs
              simp at hrs
          · rw [Bool.not_eq_true] at hv
            have happly : applyFix cfg ext inner e w = (.ok r0, wx) := by
              refine h0.trans ?_
              apply mtry_ok_run
              refine (mbind_ok_run _ _ _ _ _ hinner).trans ?_
              dsimp only
              simp only [hv, Bool.and_false, Bool.false_eq_true, if_false]
              rfl
            have hq := happly.symm.trans happ
            injection hq with hq1 hq2
            injection hq1 with hq3
            exact ⟨r0, wx, rfl, hs, hq3.symm, hq2.symm,
              fun hvt => absurd (hv.symm.trans hvt) Bool.false_ne_true⟩
        · rw [Bool.not_eq_true] at hs
          have happly : applyFix cfg ext inner e w = (.ok r0, wx) := by
            refine h0.trans ?_
            apply mtry_ok_run
            refine (mbind_ok_run _ _ _ _ _ hinner).trans ?_
            dsimp only
            simp only [hs, Bool.false_and, Bool.false_eq_true, if_false]
            rfl
          have hq := happly.symm.trans happ
          injection hq with hq1 hq2
          injection hq1 with hq3
          rw [← hq3] at hrs
          rw [hs] at hrs
          exact absurd hrs Bool.false_ne_true

/-- Witness for C2 at a concrete run: safe mode off, backups on, a
throwing apply step; the attempt fails with the thrown message and the
target file again holds its original bytes. -/
theorem C2_applyFix_validation_rollback_restore_witness :
    ∃ wf, applyFix cfgOpen extOn innerThrow eDemo wDemo =
      (.ok { success := false, error := some "boom", file := eDemo.file,
             applied := false, changes := none }, wf) ∧
      alookup wf.files eDemo.file = some "let x = 1" := by
  obtain ⟨h1, h2, h3, h4, h5, h6⟩ := C2_applyFix_validation_rollback_restore cfgOpen extOn
    innerThrow eDemo wDemo "let x = 1" rfl rfl (by decide) (by decide) (fun w2 => rfl)
  obtain ⟨ha, hb2⟩ := h2 "boom" _ rfl
  exact ⟨_, ha, hb2⟩

/-- Helper: a list whose `isEmpty` test fails is not nil. -/
theorem ne_nil_of_not_isEmpty {α : Type} (l : List α) (h : ¬(l.isEmpty = true)) : l ≠ [] := by
  intro hl
  subst hl
  exact h rfl

/-- Helper: every split candidate recombines to the input, with a
nonempty prefix. -/
theorem splitsAsc_sound (cs : List Char) (p r : List Char)
    (h : (p, r) ∈ splitsAsc cs) : p ++ r = cs ∧ p ≠ [] := by
  induction cs generalizing p r with
  | nil => simp [splitsAsc] at h
  | cons c tl ih =>
    unfold splitsAsc at h
    by_cases hc : c = '\n'
    · rw [if_pos hc] at h
      simp at h
    · rw [if_neg hc] at h
      rcases List.mem_cons.mp h with heq | hmem
      · rw [Prod.mk.injEq] at heq
        obtain ⟨hp, hr⟩ := heq
        subst hp
        subst hr
        exact ⟨rfl, by simp⟩
      · obtain ⟨pr, hpr, heq⟩ := List.mem_map.mp hmem
        rw [Prod.mk.injEq] at heq
        obtain ⟨hp, hr⟩ := heq
        subst hp
        subst hr
        obtain ⟨hj, _⟩ := ih pr.1 pr.2 (by simpa using hpr)
        exact ⟨by rw [List.cons_append, hj], by simp⟩

/-- Helper: greedy-order splits recombine the same way. -/
theorem splitsDesc_sound (cs : List Char) (p r : List Char)
    (h : (p, r) ∈ splitsDesc cs) : p ++ r = cs ∧ p ≠ [] :=
  splitsAsc_sound cs p r (List.mem_reverse.mp h)

/-- Helper: a boolean prefix recombines with the remainder drop. -/
theorem isPrefixOf_append_drop {l1 l2 : List Char} (h : l1.isPrefixOf l2 = true) :
    l1 ++ l2.drop l1.length = l2 := by
  obtain ⟨t, rfl⟩ := List.isPrefixOf_iff_prefix.mp h
  rw [List.drop_left]

/-- Helper: a consumed candidate recombines to the input and satisfies
the token's shape invariant. -/
theorem consume_sound (t : Tok) (prev : Option Char) (cs p r : List Char)
    (h : (p, r) ∈ consume t prev cs) : p ++ r = cs ∧ TokOK t p := by
  cases t with
  | lit s =>
    simp only [consume] at h
    split at h
    · rename_i hpre
      simp only [List.mem_singleton, Prod.mk.injEq] at h
      obtain ⟨hp, hr⟩ := h
      subst hp
      subst hr
      exact ⟨isPrefixOf_append_drop hpre, rfl⟩
    · simp at h
  | litCI s =>
    simp only [consume] at h
    split at h
    · rename_i hci
      simp only [List.mem_singleton, Prod.mk.injEq] at h
      obtain ⟨hp, hr⟩ := h
      subst hp
      subst hr
      refine ⟨List.take_append_drop _ _, ?_⟩
      show (cs.take s.data.length).length = s.data.length
      have hlen := congrArg List.length hci
      simpa using hlen
    · simp at h
  | digits =>
    simp only [consume] at h
    split at h
    · simp at h
    · rename_i hne
      simp only [List.mem_singleton, Prod.mk.injEq] at h
      obtain ⟨hp, hr⟩ := h
      subst hp
      subst hr
      exact ⟨List.takeWhile_append_dropWhile _ _,
        ne_nil_of_not_isEmpty _ hne, fun c hc => List.mem_takeWhile_imp hc⟩
  | dotPlus =>
    exact splitsDesc_sound cs p r h
  | dotPlusSuf sufs =>
    simp only [consume] at h
    obtain ⟨hmem, hpred⟩ := List.mem_filter.mp h
    obtain ⟨hjoin, hne⟩ := splitsDesc_sound cs p r hmem
    refine ⟨hjoin, hne, ?_⟩
    simp only [List.any_eq_true, Bool.and_eq_true, decide_eq_true_eq] at hpred
    obtain ⟨suf, hsuf, hs1, _⟩ := hpred
    exact ⟨suf, hsuf, List.isSuffixOf_iff_suffix.mp hs1⟩
  | noneOfPlus banned =>
    simp only [consume] at h
    split at h
    · simp at h
    · rename_i hne
      simp only [List.mem_singleton, Prod.mk.injEq] at h
      obtain ⟨hp, hr⟩ := h
      subst hp
      subst hr
      refine ⟨List.takeWhile_append_dropWhile _ _, ne_nil_of_not_isEmpty _ hne, ?_⟩
      intro c hc
      have := List.mem_takeWhile_imp hc
      simpa using this
  | altLit ss =>
    simp only [consume] at h
    obtain ⟨s, hs, hif⟩ := List.mem_filterMap.mp h
    split at hif
    · rename_i hpre
      injection hif with hif2
      rw [Prod.mk.injEq] at hif2
      obtain ⟨hp, hr⟩ := hif2
      subst hp
      subst hr
      exact ⟨isPrefixOf_append_drop hpre, s, hs, rfl⟩
    · exact absurd hif (by simp)
  | wsPlus =>
    simp only [consume] at h
    split at h
    · simp at h
    · rename_i hne
      simp only [List.mem_singleton, Prod.mk.injEq] at h
      obtain ⟨hp, hr⟩ := h
      subst hp
      subst hr
      exact ⟨List.takeWhile_append_dropWhile _ _, ne_nil_of_not_isEmpty _ hne⟩
  | wsStar =>
    simp only [consume] at h
    simp only [List.mem_singleton, Prod.mk.injEq] at h
    obtain ⟨hp, hr⟩ := h
    subst hp
    subst hr
    exact ⟨List.takeWhile_append_dropWhile _ _, trivial⟩
  | wordB =>
    simp only [consume] at h
    split at h
    · simp only [List.mem_singleton, Prod.mk.injEq] at h
      obtain ⟨hp, hr⟩ := h
      subst hp
      subst hr
      exact ⟨rfl, rfl⟩
    · simp at h

/-- Helper: a successful anchored match decomposes the input into the
per-token pieces (in order) followed by a remainder, every piece
satisfying its token's shape invariant. -/
theorem mmatch_sound (toks : List Tok) (prev : Option Char) (cs : List Char)
    (ps : List (List Char)) (h : mmatch toks prev cs = some ps) :
    ∃ rest, ps.flatten ++ rest = cs ∧ List.Forall₂ (fun t p => TokOK t p) toks ps := by
  induction toks generalizing prev cs ps with
  | nil =>
    unfold mmatch at h
    injection h with h2
    subst h2
    exact ⟨cs, by simp, List.Forall₂.nil⟩
  | cons t ts ih =>
    unfold mmatch at h
    obtain ⟨pr, hpr, hmap⟩ := List.exists_of_findSome?_eq_some h
    obtain ⟨ps', hps', hcons⟩ :
        ∃ ps', mmatch ts (lastCharOf pr.1 prev) pr.2 = some ps' ∧ ps = pr.1 :: ps' := by
      cases hm : mmatch ts (lastCharOf pr.1 prev) pr.2 with
      | none => rw [hm] at hmap; simp at hmap
      | some q =>
        rw [hm] at hmap
        simp only [Option.map_some'] at hmap
        injection hmap with hmap2
        exact ⟨q, rfl, hmap2.symm⟩
    subst hcons
    obtain ⟨rest, hrest, hfa⟩ := ih _ _ _ hps'
    obtain ⟨hjoin, hok⟩ := consume_sound t prev cs pr.1 pr.2 hpr
    refine ⟨rest, ?_, List.Forall₂.cons hok hfa⟩
    rw [List.flatten_cons, List.append_assoc, hrest, hjoin]

/-- Helper: a successful unanchored search decomposes the input into a
skipped prefix, the per-token pieces and a remainder. -/
theorem rsearch_sound (toks : List Tok) (prev : Option Char) (cs : List Char)
    (ps : List (List Char)) (h : rsearch toks prev cs = some ps) :
    ∃ pre rest, pre ++ (ps.flatten ++ rest) = cs ∧
      List.Forall₂ (fun t p => TokOK t p) toks ps := by
  induction cs generalizing prev with
  | nil =>
    unfold rsearch at h
    obtain ⟨rest, hrest, hfa⟩ := mmatch_sound toks prev [] ps h
    exact ⟨[], rest, by simpa using hrest, hfa⟩
  | cons c tl ih =>
    unfold rsearch at h
    cases hm : mmatch toks prev (c :: tl) with
    | some q =>
      simp only [hm] at h
      injection h with h2
      subst h2
      obtain ⟨rest, hrest, hfa⟩ := mmatch_sound toks prev (c :: tl) q hm
      exact ⟨[], rest, by simpa using hrest, hfa⟩
    | none =>
      simp only [hm] at h
      obtain ⟨pre, rest, hca, hfa⟩ := ih (some c) h
      exact ⟨c :: pre, rest, by rw [List.cons_append, hca], hfa⟩

/-- Helper: a successful `regexFind` yields the pieces of a leftmost
match embedded in the searched string. -/
theorem regexFind_sound (toks : List Tok) (s : String) (strs : List String)
    (h : regexFind toks s = some strs) :
    ∃ ps pre rest, strs = ps.map (fun l => (⟨l⟩ : String)) ∧
      pre ++ (ps.flatten ++ rest) = s.data ∧
      List.Forall₂ (fun t p => TokOK t p) toks ps := by
  unfold regexFind at h
  cases hr : rsearch toks none s.data with
  | none => rw [hr] at h; simp at h
  | some ps =>
    rw [hr] at h
    simp only [Option.map_some'] at h
    injection h with h2
    obtain ⟨pre, rest, hca, hfa⟩ := rsearch_sound toks none s.data ps hr
    exact ⟨ps, pre, rest, h2.symm, hca, hfa⟩

/-- Helper: folding the decimal accumulator from a positive seed stays
positive. -/
theorem foldl_digits_pos (p : List Char) (a : Nat) (ha : 0 < a) :
    0 < p.foldl (fun a c => 10 * a + (c.toNat - 48)) a := by
  induction p generalizing a with
  | nil => exact ha
  | cons c tl ih =>
    rw [List.foldl_cons]
    exact ih (10 * a + (c.toNat - 48)) (by omega)

/-- Helper: a digit character of numeric value zero is the zero digit. -/
theorem digit_zero_char (c : Char) (hd : isDigitC c = true) (hz : c.toNat - 48 = 0) : c = '0' := by
  simp only [isDigitC, Char.isDigit, decide_eq_true_eq, Bool.and_eq_true, ge_iff_le] at hd
  have h3 : (48 : UInt32).toNat ≤ c.val.toNat := UInt32.le_def.mp hd.1
  have h48 : (48 : UInt32).toNat = 48 := rfl
  have hcv : c.toNat = c.val.toNat := rfl
  have h4 : c.val.toNat = (48 : UInt32).toNat := by omega
  exact Char.ext (UInt32.ext h4)

/-- Helper: a nonempty all-digit capture parsing to zero starts with the
zero digit. -/
theorem jsParseInt_zero_head (p : List Char) (hne : p ≠ [])
    (hd : ∀ c ∈ p, isDigitC c = true) (hz : jsParseInt ⟨p⟩ = 0) :
    ∃ tl, p = '0' :: tl := by
  cases p with
  | nil => exact absurd rfl hne
  | cons c tl =>
    unfold jsParseInt at hz
    rw [show (⟨c :: tl⟩ : String).data = c :: tl from rfl] at hz
    rw [List.takeWhile_eq_self_iff.mpr hd] at hz
    rw [List.foldl_cons] at hz
    by_cases hc0 : c.toNat - 48 = 0
    · exact ⟨tl, by rw [digit_zero_char c (hd c (by simp)) hc0]⟩
    · exfalso
      have hpos := foldl_digits_pos tl (10 * 0 + (c.toNat - 48)) (by omega)
      omega

/-- Helper: a string containing an embedded occurrence of a pattern
satisfies `includes`. -/
theorem strContains_of_infix (s : String) (pat : String) (pre suf : List Char)
    (h : pre ++ (pat.data ++ suf) = s.data) : strContains s pat = true := by
  unfold strContains
  rw [decide_eq_true_eq]
  refine ⟨pre, suf, ?_⟩
  rw [List.append_assoc]
  exact h

/-- Helper: a separator followed by a zero digit embedded in a string
makes the two-character pattern a substring. -/
theorem strContains_sep_zero (s : String) (pat : String) (sep : Char)
    (hpat : pat.data = [sep, '0'])
    (A B : List Char) (h : A ++ ([sep] ++ ('0' :: B)) = s.data) :
    strContains s pat = true := by
  apply strContains_of_infix s pat A B
  rw [hpat]
  simpa using h


/-- C8 counterexample: a TypeScript-style diagnostic line with a zero
line number parses to a diagnostic whose location line is 0, so parsed
locations are not always strictly positive. -/
theorem C8_zero_line_counterexample :
    ∃ d, parseLogLine "a.ts(0,5): error TS1: boom" = some d ∧
      d.type = .typescript ∧ d.location.line = 0 :=
  ⟨_, rfl, rfl, rfl⟩

/-- Helper: a digit capture embedded after its separator parses to a
positive value when the separator-zero two-character pattern does not
occur in the line. -/
theorem digits_pos_of_no_sepzero (s : String) (flag : String) (sep : Char)
    (hflag : flag.data = [sep, '0'])
    (hfs : strContains s flag = false)
    (p : List Char) (hne : p ≠ []) (hdig : ∀ c ∈ p, isDigitC c = true)
    (A B : List Char)
    (hcat2 : A ++ ([sep] ++ (p ++ B)) = s.data) :
    0 < jsParseInt ⟨p⟩ := by
  rcases Nat.eq_zero_or_pos (jsParseInt ⟨p⟩) with hz | hpos
  · exfalso
    obtain ⟨tl, rfl⟩ := jsParseInt_zero_head p hne hdig hz
    refine absurd (strContains_sep_zero s flag sep hflag A (tl ++ B) ?_)
      (by rw [hfs]; exact Bool.false_ne_true)
    simpa using hcat2
  · exact hpos

set_option maxHeartbeats 1600000 in
/-- C8: on every line that parses, the diagnostic's location is the
sentinel (file "unknown", line 1, column 1) whenever the category is
unknown; and the parsed line and column numbers are strictly positive
whenever the cleaned line contains none of the zero-digit captures
"(0", ",0", ":0" (a line such as `a.ts(0,5): ...` genuinely parses to
line 0, so positivity needs this caveat). -/
theorem C8_location_positive_or_sentinel (line : String) (d : ParsedError)
    (hp : parseLogLine line = some d) :
    (d.type = .unknown → d.location = { file := "unknown", line := 1, column := 1 }) ∧
    (strContains (cleanLogLine line) "(0" = false →
     strContains (cleanLogLine line) ",0" = false →
     strContains (cleanLogLine line) ":0" = false →
     0 < d.location.line ∧ 0 < d.location.column) := by
  unfold parseLogLine at hp
  dsimp only at hp
  split at hp
  · exact absurd hp (by simp)
  · split at hp
    · rename_i e hfs
      injection hp with h2
      subst h2
      obtain ⟨pat, hpat, hF⟩ := List.exists_of_findSome?_eq_some hfs
      cases hrf : regexFind pat.toks (cleanLogLine line) with
      | none => rw [hrf] at hF; simp at hF
      | some strs =>
        rw [hrf] at hF
        simp only [Option.map_some'] at hF
        injection hF with hF2
        subst hF2
        obtain ⟨ps, pre, rest, hstrs, hcat, hfa⟩ := regexFind_sound _ _ _ hrf
        subst hstrs
        simp only [patterns, List.mem_cons, List.not_mem_nil, or_false] at hpat
        rcases hpat with rfl | rfl | rfl | rfl | rfl | rfl | rfl | rfl
        · dsimp only at hfa
          unfold tsErrToks at hfa
          rw [List.forall₂_cons_left_iff] at hfa
          obtain ⟨p0, ps1, hok0, hfa, rfl⟩ := hfa
          rw [List.forall₂_cons_left_iff] at hfa
          obtain ⟨p1, ps2, hok1, hfa, rfl⟩ := hfa
          rw [List.forall₂_cons_left_iff] at hfa
          obtain ⟨p2, ps3, hok2, hfa, rfl⟩ := hfa
          rw [List.forall₂_cons_left_iff] at hfa
          obtain ⟨p3, ps4, hok3, hfa, rfl⟩ := hfa
          rw [List.forall₂_cons_left_iff] at hfa
          obtain ⟨p4, ps5, hok4, hfa, rfl⟩ := hfa
          rw [List.forall₂_cons_left_iff] at hfa
          obtain ⟨p5, ps6, hok5, hfa, rfl⟩ := hfa
          rw [List.forall₂_cons_left_iff] at hfa
          obtain ⟨p6, ps7, hok6, hfa, rfl⟩ := hfa
          rw [List.forall₂_cons_left_iff] at hfa
          obtain ⟨p7, ps8, hok7, hfa, rfl⟩ := hfa
          rw [List.forall₂_cons_left_iff] at hfa
          obtain ⟨p8, ps9, hok8, hfa, rfl⟩ := hfa
          rw [List.forall₂_nil_left_iff] at hfa
          subst hfa
          refine ⟨fun habs => ErrorType.noConfusion habs, fun h1 h2 h3 => ?_⟩
          have hok2c : p2 ≠ [] ∧ ∀ c ∈ p2, isDigitC c = true := hok2
          have hok4c : p4 ≠ [] ∧ ∀ c ∈ p4, isDigitC c = true := hok4
          constructor
          ·
            refine digits_pos_of_no_sepzero (cleanLogLine line) "(0" '(' rfl h1
              p2 hok2c.1 hok2c.2 (pre ++ p0) (p3 ++ (p4 ++ (p5 ++ (p6 ++ (p7 ++ (p8 ++ (rest))))))) ?_
            have hsep2 : p1 = ['('] := hok1
            rw [← hcat, hsep2]
            simp [List.append_assoc, List.flatten_cons, List.flatten_nil]
          ·
            refine digits_pos_of_no_sepzero (cleanLogLine line) ",0" ',' rfl h2
              p4 hok4c.1 hok4c.2 (pre ++ p0 ++ p1 ++ p2) (p5 ++ (p6 ++ (p7 ++ (p8 ++ (rest))))) ?_
            have hsep4 : p3 = [','] := hok3
            rw [← hcat, hsep4]
            simp [List.append_assoc, List.flatten_cons, List.flatten_nil]
        · dsimp only at hfa
          unfold tsWarnToks at hfa
          rw [List.forall₂_cons_left_iff] at hfa
          obtain ⟨p0, ps1, hok0, hfa, rfl⟩ := hfa
          rw [List.forall₂_cons_left_iff] at hfa
          obtain ⟨p1, ps2, hok1, hfa, rfl⟩ := hfa
          rw [List.forall₂_cons_left_iff] at hfa
          obtain ⟨p2, ps3, hok2, hfa, rfl⟩ := hfa
          rw [List.forall₂_cons_left_iff] at hfa
          obtain ⟨p3, ps4, hok3, hfa, rfl⟩ := hfa
          rw [List.forall₂_cons_left_iff] at hfa
          obtain ⟨p4, ps5, hok4, hfa, rfl⟩ := hfa
          rw [List.forall₂_cons_left_iff] at hfa
          obtain ⟨p5, ps6, hok5, hfa, rfl⟩ := hfa
          rw [List.forall₂_cons_left_iff] at hfa
          obtain ⟨p6, ps7, hok6, hfa, rfl⟩ := hfa
          rw [List.forall₂_cons_left_iff] at hfa
          obtain ⟨p7, ps8, hok7, hfa, rfl⟩ := hfa
          rw [List.forall₂_cons_left_iff] at hfa
          obtain ⟨p8, ps9, hok8, hfa, rfl⟩ := hfa
          rw [List.forall₂_nil_left_iff] at hfa
          subst hfa
          refine ⟨fun habs => ErrorType.noConfusion habs, fun h1 h2 h3 => ?_⟩
          have hok2c : p2 ≠ [] ∧ ∀ c ∈ p2, isDigitC c = true := hok2
          have hok4c : p4 ≠ [] ∧ ∀ c ∈ p4, isDigitC c = true := hok4
          constructor
          ·
            refine digits_pos_of_no_sepzero (cleanLogLine line) "(0" '(' rfl h1
              p2 hok2c.1 hok2c.2 (pre ++ p0) (p3 ++ (p4 ++ (p5 ++ (p6 ++ (p7 ++ (p8 ++ (rest))))))) ?_
            have hsep2 : p1 = ['('] := hok1
            rw [← hcat, hsep2]
            simp [List.append_assoc, List.flatten_cons, List.flatten_nil]
          ·
            refine digits_pos_of_no_sepzero (cleanLogLine line) ",0" ',' rfl h2
              p4 hok4c.1 hok4c.2 (pre ++ p0 ++ p1 ++ p2) (p5 ++ (p6 ++ (p7 ++ (p8 ++ (rest))))) ?_
            have hsep4 : p3 = [','] := hok3
            rw [← hcat, hsep4]
            simp [List.append_assoc, List.flatten_cons, List.flatten_nil]
        · dsimp only at hfa
          unfold eslintToks at hfa
          rw [List.forall₂_cons_left_iff] at hfa
          obtain ⟨p0, ps1, hok0, hfa, rfl⟩ := hfa
          rw [List.forall₂_cons_left_iff] at hfa
          obtain ⟨p1, ps2, hok1, hfa, rfl⟩ := hfa
          rw [List.forall₂_cons_left_iff] at hfa
          obtain ⟨p2, ps3, hok2, hfa, rfl⟩ := hfa
          rw [List.forall₂_cons_left_iff] at hfa
          obtain ⟨p3, ps4, hok3, hfa, rfl⟩ := hfa
          rw [List.forall₂_cons_left_iff] at hfa
          obtain ⟨p4, ps5, hok4, hfa, rfl⟩ := hfa
          rw [List.forall₂_cons_left_iff] at hfa
          obtain ⟨p5, ps6, hok5, hfa, rfl⟩ := hfa
          rw [List.forall₂_cons_left_iff] at hfa
          obtain ⟨p6, ps7, hok6, hfa, rfl⟩ := hfa
          rw [List.forall₂_cons_left_iff] at hfa
          obtain ⟨p7, ps8, hok7, hfa, rfl⟩ := hfa
          rw [List.forall₂_cons_left_iff] at hfa
          obtain ⟨p8, ps9, hok8, hfa, rfl⟩ := hfa
          rw [List.forall₂_cons_left_iff] at hfa
          obtain ⟨p9, ps10, hok9, hfa, rfl⟩ := hfa
          rw [List.forall₂_cons_left_iff] at hfa
          obtain ⟨p10, ps11, hok10, hfa, rfl⟩ := hfa
          rw [List.forall₂_cons_left_iff] at hfa
          obtain ⟨p11, ps12, hok11, hfa, rfl⟩ := hfa
          rw [List.forall₂_nil_left_iff] at hfa
          subst hfa
          refine ⟨fun habs => ErrorType.noConfusion habs, fun h1 h2 h3 => ?_⟩
          have hok2c : p2 ≠ [] ∧ ∀ c ∈ p2, isDigitC c = true := hok2
          have hok4c : p4 ≠ [] ∧ ∀ c ∈ p4, isDigitC c = true := hok4
          constructor
          ·
            refine digits_pos_of_no_sepzero (cleanLogLine line) ":0" ':' rfl h3
              p2 hok2c.1 hok2c.2 (pre ++ p0) (p3 ++ (p4 ++ (p5 ++ (p6 ++ (p7 ++ (p8 ++ (p9 ++ (p10 ++ (p11 ++ (rest)))))))))) ?_
            have hsep2 : p1 = [':'] := hok1
            rw [← hcat, hsep2]
            simp [List.append_assoc, List.flatten_cons, List.flatten_nil]
          ·
            refine digits_pos_of_no_sepzero (cleanLogLine line) ":0" ':' rfl h3
              p4 hok4c.1 hok4c.2 (pre ++ p0 ++ p1 ++ p2) (p5 ++ (p6 ++ (p7 ++ (p8 ++ (p9 ++ (p10 ++ (p11 ++ (rest)))))))) ?_
            have hsep4 : p3 = [':'] := hok3
            rw [← hcat, hsep4]
            simp [List.append_assoc, List.flatten_cons, List.flatten_nil]
        · dsimp only at hfa
          unfold buildToks at hfa
          rw [List.forall₂_cons_left_iff] at hfa
          obtain ⟨p0, ps1, hok0, hfa, rfl⟩ := hfa
          rw [List.forall₂_cons_left_iff] at hfa
          obtain ⟨p1, ps2, hok1, hfa, rfl⟩ := hfa
          rw [List.forall₂_cons_left_iff] at hfa
          obtain ⟨p2, ps3, hok2, hfa, rfl⟩ := hfa
          rw [List.forall₂_cons_left_iff] at hfa
          obtain ⟨p3, ps4, hok3, hfa, rfl⟩ := hfa
          rw [List.forall₂_cons_left_iff] at hfa
          obtain ⟨p4, ps5, hok4, hfa, rfl⟩ := hfa
          rw [List.forall₂_cons_left_iff] at hfa
          obtain ⟨p5, ps6, hok5, hfa, rfl⟩ := hfa
          rw [List.forall₂_cons_left_iff] at hfa
          obtain ⟨p6, ps7, hok6, hfa, rfl⟩ := hfa
          rw [List.forall₂_cons_left_iff] at hfa
          obtain ⟨p7, ps8, hok7, hfa, rfl⟩ := hfa
          rw [List.forall₂_cons_left_iff] at hfa
          obtain ⟨p8, ps9, hok8, hfa, rfl⟩ := hfa
          rw [List.forall₂_cons_left_iff] at hfa
          obtain ⟨p9, ps10, hok9, hfa, rfl⟩ := hfa
          rw [List.forall₂_nil_left_iff] at hfa
          subst hfa
          refine ⟨fun habs => ErrorType.noConfusion habs, fun h1 h2 h3 => ?_⟩
          have hok7c : p7 ≠ [] ∧ ∀ c ∈ p7, isDigitC c = true := hok7
          have hok9c : p9 ≠ [] ∧ ∀ c ∈ p9, isDigitC c = true := hok9
          constructor
          ·
            refine digits_pos_of_no_sepzero (cleanLogLine line) ":0" ':' rfl h3
              p7 hok7c.1 hok7c.2 (pre ++ p0 ++ p1 ++ p2 ++ p3 ++ p4 ++ p5) (p8 ++ (p9 ++ (rest))) ?_
            have hsep7 : p6 = [':'] := hok6
            rw [← hcat, hsep7]
            simp [List.append_assoc, List.flatten_cons, List.flatten_nil]
          ·
            refine digits_pos_of_no_sepzero (cleanLogLine line) ":0" ':' rfl h3
              p9 hok9c.1 hok9c.2 (pre ++ p0 ++ p1 ++ p2 ++ p3 ++ p4 ++ p5 ++ p6 ++ p7) (rest) ?_
            have hsep9 : p8 = [':'] := hok8
            rw [← hcat, hsep9]
            simp [List.append_assoc, List.flatten_cons, List.flatten_nil]
        · dsimp only at hfa
          unfold runtimeToks at hfa
          rw [List.forall₂_cons_left_iff] at hfa
          obtain ⟨p0, ps1, hok0, hfa, rfl⟩ := hfa
          rw [List.forall₂_cons_left_iff] at hfa
          obtain ⟨p1, ps2, hok1, hfa, rfl⟩ := hfa
          rw [List.forall₂_cons_left_iff] at hfa
          obtain ⟨p2, ps3, hok2, hfa, rfl⟩ := hfa
          rw [List.forall₂_cons_left_iff] at hfa
          obtain ⟨p3, ps4, hok3, hfa, rfl⟩ := hfa
          rw [List.forall₂_cons_left_iff] at hfa
          obtain ⟨p4, ps5, hok4, hfa, rfl⟩ := hfa
          rw [List.forall₂_cons_left_iff] at hfa
          obtain ⟨p5, ps6, hok5, hfa, rfl⟩ := hfa
          rw [List.forall₂_cons_left_iff] at hfa
          obtain ⟨p6, ps7, hok6, hfa, rfl⟩ := hfa
          rw [List.forall₂_cons_left_iff] at hfa
          obtain ⟨p7, ps8, hok7, hfa, rfl⟩ := hfa
          rw [List.forall₂_cons_left_iff] at hfa
          obtain ⟨p8, ps9, hok8, hfa, rfl⟩ := hfa
          rw [List.forall₂_cons_left_iff] at hfa
          obtain ⟨p9, ps10, hok9, hfa, rfl⟩ := hfa
          rw [List.forall₂_cons_left_iff] at hfa
          obtain ⟨p10, ps11, hok10, hfa, rfl⟩ := hfa
          rw [List.forall₂_cons_left_iff] at hfa
          obtain ⟨p11, ps12, hok11, hfa, rfl⟩ := hfa
          rw [List.forall₂_nil_left_iff] at hfa
          subst hfa
          refine ⟨fun habs => ErrorType.noConfusion habs, fun h1 h2 h3 => ?_⟩
          have hok8c : p8 ≠ [] ∧ ∀ c ∈ p8, isDigitC c = true := hok8
          have hok10c : p10 ≠ [] ∧ ∀ c ∈ p10, isDigitC c = true := hok10
          constructor
          ·
            refine digits_pos_of_no_sepzero (cleanLogLine line) ":0" ':' rfl h3
              p8 hok8c.1 hok8c.2 (pre ++ p0 ++ p1 ++ p2 ++ p3 ++ p4 ++ p5 ++ p6) (p9 ++ (p10 ++ (p11 ++ (rest)))) ?_
            have hsep8 : p7 = [':'] := hok7
            rw [← hcat, hsep8]
            simp [List.append_assoc, List.flatten_cons, List.flatten_nil]
          ·
            refine digits_pos_of_no_sepzero (cleanLogLine line) ":0" ':' rfl h3
              p10 hok10c.1 hok10c.2 (pre ++ p0 ++ p1 ++ p2 ++ p3 ++ p4 ++ p5 ++ p6 ++ p7 ++ p8) (p11 ++ (rest)) ?_
            have hsep10 : p9 = [':'] := hok9
            rw [← hcat, hsep10]
            simp [List.append_assoc, List.flatten_cons, List.flatten_nil]
        · exact ⟨fun habs => ErrorType.noConfusion habs,
            fun _ _ _ => ⟨Nat.one_pos, Nat.one_pos⟩⟩
        · dsimp only at hfa
          unfold syntaxToks at hfa
          rw [List.forall₂_cons_left_iff] at hfa
          obtain ⟨p0, ps1, hok0, hfa, rfl⟩ := hfa
          rw [List.forall₂_cons_left_iff] at hfa
          obtain ⟨p1, ps2, hok1, hfa, rfl⟩ := hfa
          rw [List.forall₂_cons_left_iff] at hfa
          obtain ⟨p2, ps3, hok2, hfa, rfl⟩ := hfa
          rw [List.forall₂_cons_left_iff] at hfa
          obtain ⟨p3, ps4, hok3, hfa, rfl⟩ := hfa
          rw [List.forall₂_cons_left_iff] at hfa
          obtain ⟨p4, ps5, hok4, hfa, rfl⟩ := hfa
          rw [List.forall₂_cons_left_iff] at hfa
          obtain ⟨p5, ps6, hok5, hfa, rfl⟩ := hfa
          rw [List.forall₂_nil_left_iff] at hfa
          subst hfa
          refine ⟨fun habs => ErrorType.noConfusion habs, fun h1 h2 h3 => ?_⟩
          have hok5c : p5 ≠ [] ∧ ∀ c ∈ p5, isDigitC c = true := hok5
          constructor
          ·
            refine digits_pos_of_no_sepzero (cleanLogLine line) ":0" ':' rfl h3
              p5 hok5c.1 hok5c.2 (pre ++ p0 ++ p1 ++ p2 ++ p3) (rest) ?_
            have hsep5 : p4 = [':'] := hok4
            rw [← hcat, hsep5]
            simp [List.append_assoc, List.flatten_cons, List.flatten_nil]
          ·
            exact Nat.one_pos
        · exact ⟨fun habs => ErrorType.noConfusion habs,
            fun _ _ _ => ⟨Nat.one_pos, Nat.one_pos⟩⟩
    · rename_i hfs
      split at hp
      · injection hp with h2
        subst h2
        exact ⟨fun _ => rfl, fun _ _ _ => ⟨Nat.one_pos, Nat.one_pos⟩⟩
      · exact absurd hp (by simp)

set_option maxRecDepth 4096 in
/-- Witness for C8 at the worked example line: it parses, its cleaned
text avoids the zero-digit captures, and the parsed location is
strictly positive. -/
theorem C8_location_positive_or_sentinel_witness :
    ∃ d, parseLogLine exampleLine = some d ∧ 0 < d.location.line ∧ 0 < d.location.column := by
  refine ⟨_, rfl, ?_⟩
  exact (C8_location_positive_or_sentinel exampleLine _ rfl).2 (by decide) (by decide) (by decide)
